import Mathlib

/-!
Verification of the image batch optimizer (`scripts/optimize_images.py`).

The script is embedded shallowly:
* the filesystem is a map from locations to optional byte strings; a location
  is a relative path under one of the four distinct roots the script touches
  (the source image tree `assets/img`, the backup tree `assets/img_backup`,
  the WebP tree `assets/img_webp`, and the per-file temporary `.opt` path);
* the Pillow library is an oracle (`PIL`) giving the results of decoding and
  of the three encoders; encoder failure (an exception caught inside
  `optimize_jpeg` / `optimize_png` / `create_webp`) is `none`;
* `process_image`, `runBatch` (the loop of `main`), `find_large_images`,
  the report percentage and the `--list-large` mode dispatch of `main` are
  translated statement by statement from the source;
* the pixel-level behaviour of `optimize_jpeg` and `create_webp` (mode
  conversion, `thumbnail` resizing, `exif_transpose`) is embedded separately
  on an abstract image record `Img` carrying dimensions, colour mode and the
  stored EXIF orientation tag.
-/

/-- A file's content: a list of bytes. -/
abbrev Bytes := List Nat

/-- A location the script can read or write: a relative path `rel` under the
source root `assets/img` (`src rel`), the mirrored backup path under
`assets/img_backup` (`bak rel`), the mirrored WebP path under
`assets/img_webp` (`webp rel`), or the temporary `.opt` sibling of the source
file (`tmp rel`).  The four roots are disjoint. -/
inductive Loc
  | src (rel : String)
  | bak (rel : String)
  | webp (rel : String)
  | tmp (rel : String)
deriving DecidableEq

/-- The filesystem: which bytes, if any, sit at each location. -/
abbrev FS := Loc → Option Bytes

/-- Write (or delete, with `none`) one location. -/
def FS.set (fs : FS) (l : Loc) (v : Option Bytes) : FS :=
  fun l' => if l' = l then v else fs l'

/-- What `get_image_info` returns on success: dimensions, declared format and
colour mode of the decoded image (plus the on-disk size, recovered from the
bytes separately here). -/
structure ImageInfo where
  width : Nat
  height : Nat
  format : String
  mode : String
deriving DecidableEq

/-- The imaging-library oracle.  `decode b` is `get_image_info`'s view of the
bytes `b` (`none` = undecodable, the `except` branch).  `encJpeg b q mw mh`
is the byte string `optimize_jpeg` writes to the temp path for source bytes
`b` at quality `q` and bounds `mw`/`mh`, `none` when Pillow raises and the
function returns `False`.  `encPng` and `encWebp` likewise for
`optimize_png` and `create_webp`. -/
structure PIL where
  decode : Bytes → Option ImageInfo
  encJpeg : Bytes → Nat → Nat → Nat → Option Bytes
  encPng : Bytes → Nat → Nat → Option Bytes
  encWebp : Bytes → Nat → Option Bytes

/-- The run configuration (`DEFAULT_CONFIG`, with `quality` and `max_width`
possibly overridden from the command line). -/
structure Config where
  quality : Nat
  webp_quality : Nat
  max_width : Nat
  max_height : Nat
  min_savings : ℚ
  skip_small : Nat
  formats : List String

/-- `DEFAULT_CONFIG` of the script. -/
def DEFAULT_CONFIG : Config :=
  { quality := 85
    webp_quality := 80
    max_width := 1920
    max_height := 1080
    min_savings := 1 / 10
    skip_small := 10240
    formats := [".jpg", ".jpeg", ".png", ".gif"] }

/-- The global `stats` accumulator. -/
structure Stats where
  processed : Nat
  skipped : Nat
  errors : Nat
  original_size : Nat
  new_size : Nat
  webp_created : Nat
deriving DecidableEq

/-- The accumulator at the start of a run. -/
def Stats.start : Stats := ⟨0, 0, 0, 0, 0, 0⟩

/-- The terminal state of one file in `process_image`.  `fileMissing` is the
unreachable case of a path that does not exist (in the script
`os.path.getsize` would raise before anything is counted); `noReencode` is
the fall-through where no optimized temp file was produced (unhandled
extension, or the encoder raised), which touches no counter. -/
inductive Outcome
  | fileMissing
  | skippedSmall
  | errored
  | dryProcessed
  | replaced
  | keptOriginal
  | noReencode
deriving DecidableEq

/-- The final path component of a relative path (chars after the last `/`). -/
def lastComponent (cs : List Char) : List Char :=
  cs.foldl (fun acc c => if c = '/' then [] else acc ++ [c]) []

/-- `pathlib.Path(rel).suffix`: the extension of the final component, from
the last dot `i` provided `0 < i < len - 1`, else empty. -/
def suffixOf (rel : String) : String :=
  let name := lastComponent rel.toList
  let n := name.length
  let dots := (List.range n).filter fun i => name.getD i ' ' = '.'
  match dots.reverse with
  | [] => ""
  | i :: _ => if 0 < i ∧ i + 1 < n then String.mk (name.drop i) else ""

/-- `path.suffix.lower()`. -/
def suffixLower (rel : String) : String :=
  String.mk ((suffixOf rel).toList.map Char.toLower)

/-- `(original_size - new_size) / original_size`, the fractional savings
printed and compared against `min_savings` (exact rational arithmetic in
place of Python floats). -/
def savingsOf (originalSize newSize : Nat) : ℚ :=
  ((originalSize : ℚ) - (newSize : ℚ)) / (originalSize : ℚ)

/-- The format dispatch of `process_image` (lines 220-236): JPEG and PNG go
to their optimizers, any other suffix produces no optimized temp file. -/
def reencode (pil : PIL) (cfg : Config) (suffix : String) (orig : Bytes) : Option Bytes :=
  if suffix = ".jpg" ∨ suffix = ".jpeg" then
    pil.encJpeg orig cfg.quality cfg.max_width cfg.max_height
  else if suffix = ".png" then
    pil.encPng orig cfg.max_width cfg.max_height
  else
    none

/-- The main outcome of one file as decided by the re-encode result and the
savings test alone (independent of the WebP step). -/
def mainOutcome (cfg : Config) (originalSize : Nat) (enc : Option Bytes) : Outcome :=
  match enc with
  | none => .noReencode
  | some newBytes =>
    if cfg.min_savings ≤ savingsOf originalSize newBytes.length then .replaced
    else .keptOriginal

/-- The `create_webp` call at the end of `process_image` (lines 266-273):
re-open the file at its source path (after any replacement), try the WebP
encoder, and on success write the mirrored `.webp` file and count it; a
failure is swallowed. -/
def webpStep (pil : PIL) (cfg : Config) (fs : FS) (rel : String) (st : Stats)
    (out : Outcome) : FS × Stats × Outcome :=
  match fs (.src rel) with
  | none => (fs, st, out)
  | some cur =>
    match pil.encWebp cur cfg.webp_quality with
    | some wb =>
      (fs.set (.webp rel) (some wb), { st with webp_created := st.webp_created + 1 }, out)
    | none => (fs, st, out)

/-- `process_image(img_path, config, dry_run)`, translated line by line:
size accounting and the too-small skip (189-197), `get_image_info` and the
error return (202-206), the dry-run return (211-214), the temp-file
re-encode, savings test, lazy backup and replace/discard (217-264), and the
WebP step (266-273). -/
def process_image (pil : PIL) (cfg : Config) (fs : FS) (rel : String)
    (dryRun : Bool) (st : Stats) : FS × Stats × Outcome :=
  match fs (.src rel) with
  | none => (fs, st, .fileMissing)
  | some orig =>
    let original_size := orig.length
    let st := { st with original_size := st.original_size + original_size }
    if original_size < cfg.skip_small then
      (fs, { st with skipped := st.skipped + 1 }, .skippedSmall)
    else
      match pil.decode orig with
      | none => (fs, { st with errors := st.errors + 1 }, .errored)
      | some _ =>
        if dryRun then
          (fs, { st with processed := st.processed + 1,
                         new_size := st.new_size + original_size }, .dryProcessed)
        else
          match reencode pil cfg (suffixLower rel) orig with
          | some newBytes =>
            -- the optimizer wrote the temp file `path.with_suffix('.opt'+suffix)`
            let fs := fs.set (.tmp rel) (some newBytes)
            let new_size := newBytes.length
            if cfg.min_savings ≤ savingsOf original_size new_size then
              -- lazy backup of the original, then move temp over the source
              let fs := if fs (.bak rel) = none then fs.set (.bak rel) (some orig) else fs
              let fs := (fs.set (.src rel) (some newBytes)).set (.tmp rel) none
              webpStep pil cfg fs rel
                { st with new_size := st.new_size + new_size,
                          processed := st.processed + 1 } .replaced
            else
              -- savings too small: unlink the temp, keep the original
              let fs := fs.set (.tmp rel) none
              webpStep pil cfg fs rel
                { st with new_size := st.new_size + original_size,
                          skipped := st.skipped + 1 } .keptOriginal
          | none =>
            -- no optimized file: count the original size, clear a stale temp
            let fs := if fs (.tmp rel) ≠ none then fs.set (.tmp rel) none else fs
            webpStep pil cfg fs rel
              { st with new_size := st.new_size + original_size } .noReencode

/-- The processing loop of `main` (lines 381-383) over the discovered files,
threading the filesystem and the accumulator and recording each file's
outcome. -/
def runBatchAux (pil : PIL) (cfg : Config) (dryRun : Bool) :
    FS → Stats → List String → FS × Stats × List Outcome
  | fs, st, [] => (fs, st, [])
  | fs, st, rel :: rest =>
    let r := process_image pil cfg fs rel dryRun st
    let t := runBatchAux pil cfg dryRun r.1 r.2.1 rest
    (t.1, t.2.1, r.2.2 :: t.2.2)

/-- A whole optimize run over the discovered files, from a fresh accumulator. -/
def runBatch (pil : PIL) (cfg : Config) (fs : FS) (rels : List String)
    (dryRun : Bool) : FS × Stats × List Outcome :=
  runBatchAux pil cfg dryRun fs Stats.start rels

/-- `find_large_images(min_size_kb)`: all files under the source root
(enumerated by `allFiles`) with a recognized extension (per
`DEFAULT_CONFIG`) and size strictly greater than `min_size_kb * 1024`,
sorted by size descending. -/
def find_large_images (fs : FS) (allFiles : List String) (min_size_kb : Nat) :
    List (String × Nat) :=
  let large := allFiles.filterMap fun rel =>
    if suffixLower rel ∈ DEFAULT_CONFIG.formats then
      match fs (.src rel) with
      | some b => if min_size_kb * 1024 < b.length then some (rel, b.length) else none
      | none => none
    else none
  large.mergeSort fun a b => decide (b.2 ≤ a.2)

/-- The percentage printed by `generate_report` when `original_size > 0`:
`(original_size - new_size) / original_size * 100`. -/
def savings_pct (st : Stats) : ℚ :=
  (((st.original_size : ℚ) - (st.new_size : ℚ)) / (st.original_size : ℚ)) * 100

/-- The parsed command line. `list_large` is `argparse`'s `None` default or
the given KB value. -/
structure Args where
  dry_run : Bool
  quality : Nat
  max_width : Nat
  list_large : Option Nat

/-- Python truthiness of `args.list_large` in `if args.list_large:`:
`None` and `0` are falsy. -/
def truthyOptNat : Option Nat → Bool
  | none => false
  | some k => decide (k ≠ 0)

/-- What a `main` invocation amounts to: the `--list-large` mode prints the
top-50 slice and the total and exits with the given status leaving the
filesystem as it was, the optimize mode runs the batch. -/
inductive RunResult
  | listed (fs : FS) (shown : List (String × Nat)) (total : Nat) (exitCode : Nat)
  | optimized (fs : FS) (st : Stats) (outcomes : List Outcome)

/-- `main()` after argument parsing, given the raw recursive enumeration
`allFiles` of the source tree: the `--list-large` branch (lines 338-348)
when `args.list_large` is truthy, else the optimize pipeline with the
configured quality and max width over the files with recognized extensions
(lines 350-386). -/
def mainRun (pil : PIL) (fs : FS) (allFiles : List String) (args : Args) : RunResult :=
  if truthyOptNat args.list_large then
    let large := find_large_images fs allFiles (args.list_large.getD 0)
    .listed fs (large.take 50) large.length 0
  else
    let cfg := { DEFAULT_CONFIG with quality := args.quality, max_width := args.max_width }
    let images := allFiles.filter fun rel => decide (suffixLower rel ∈ cfg.formats)
    let r := runBatch pil cfg fs images args.dry_run
    .optimized r.1 r.2.1 r.2.2

/-! ### The pixel-level model of `optimize_jpeg` and `create_webp`

An abstract decoded image: stored pixel dimensions, Pillow colour mode and
the stored EXIF orientation tag (1-8; 1 or anything unrecognized means "as
stored"). -/

structure Img where
  width : Nat
  height : Nat
  mode : String
  exifOrientation : Nat
deriving DecidableEq

/-- `img.convert(m)`: change the colour mode. -/
def Img.convert (img : Img) (m : String) : Img := { img with mode := m }

/-- `img.thumbnail((mw, mh))`: no-op when the image already fits the box,
else downscale both dimensions by the one ratio that fits the box,
preserving aspect (exact rational arithmetic standing in for Pillow's float
rounding; results are floored and kept at least 1). -/
def Img.thumbnail (img : Img) (mw mh : Nat) : Img :=
  if img.width ≤ mw ∧ img.height ≤ mh then img
  else
    let r : ℚ := min ((mw : ℚ) / (img.width : ℚ)) ((mh : ℚ) / (img.height : ℚ))
    { img with
      width := max 1 (Int.toNat ⌊(img.width : ℚ) * r⌋)
      height := max 1 (Int.toNat ⌊(img.height : ℚ) * r⌋) }

/-- `ImageOps.exif_transpose(img)`: orientations 5-8 are the transposed
ones (they swap the stored dimensions), 2-4 flip or rotate in place; the
result carries no orientation anymore (tag 1). -/
def Img.exif_transpose (img : Img) : Img :=
  if img.exifOrientation = 5 ∨ img.exifOrientation = 6 ∨
      img.exifOrientation = 7 ∨ img.exifOrientation = 8 then
    { width := img.height, height := img.width, mode := img.mode, exifOrientation := 1 }
  else if img.exifOrientation = 2 ∨ img.exifOrientation = 3 ∨ img.exifOrientation = 4 then
    { img with exifOrientation := 1 }
  else
    img

/-- The JPEG encoder call of `optimize_jpeg`: what image is saved and with
which parameters. -/
structure JpegSaved where
  img : Img
  quality : Nat
  optimizeFlag : Bool
  progressive : Bool
deriving DecidableEq

/-- `optimize_jpeg` (lines 88-108) at the pixel level: convert `RGBA`/`P`
sources to `RGB`, downscale with `thumbnail` when a dimension exceeds its
bound, apply `exif_transpose`, and save as JPEG with `quality=quality,
optimize=True, progressive=True`. -/
def optimize_jpeg (img : Img) (quality mw mh : Nat) : JpegSaved :=
  let i1 := if img.mode = "RGBA" ∨ img.mode = "P" then img.convert "RGB" else img
  let i2 := if i1.width > mw ∨ i1.height > mh then i1.thumbnail mw mh else i1
  let i3 := i2.exif_transpose
  ⟨i3, quality, true, true⟩

/-- The WebP encoder call of `create_webp`: what image is saved and with
which parameters. -/
structure WebpSaved where
  img : Img
  quality : Nat
  method : Nat
deriving DecidableEq

/-- `create_webp` (lines 138-153) at the pixel level: `P` sources become
`RGBA`, `RGBA`/`LA` keep their mode (transparency preserved), everything
else is flattened to `RGB`; saved with the given quality and `method=6`. -/
def create_webp (img : Img) (quality : Nat) : WebpSaved :=
  let i :=
    if img.mode = "RGBA" ∨ img.mode = "LA" ∨ img.mode = "P" then
      if img.mode = "P" then img.convert "RGBA" else img
    else
      img.convert "RGB"
  ⟨i, quality, 6⟩

/-- The relative path a location belongs to: processing one file touches
only locations of its own path. -/
def Loc.relOf : Loc → String
  | .src r => r
  | .bak r => r
  | .webp r => r
  | .tmp r => r

/-! ### Concrete instances used to exercise the theorems -/

/-- A block of `n` zero bytes. -/
def bs (n : Nat) : Bytes := List.replicate n 0

/-- A fixed decode result. -/
def infoA : ImageInfo := ⟨100, 50, "JPEG", "RGB"⟩

/-- The default configuration with a tiny `skip_small`, so small concrete
files pass the size gate. -/
def cfgW : Config :=
  { quality := 85
    webp_quality := 80
    max_width := 1920
    max_height := 1080
    min_savings := 1 / 10
    skip_small := 4
    formats := [".jpg", ".jpeg", ".png", ".gif"] }

/-- An oracle whose JPEG encoder halves the byte count and whose WebP
encoder thirds it; empty files fail to decode. -/
def pilA : PIL :=
  { decode := fun b => if b.length = 0 then none else some infoA
    encJpeg := fun b _ _ _ => some (bs (b.length / 2))
    encPng := fun b _ _ => some (bs b.length)
    encWebp := fun b _ => some (bs (b.length / 3)) }

/-- An oracle whose encoders always raise and whose decoder fails exactly on
7-byte files. -/
def pilE : PIL :=
  { decode := fun b => if b.length = 7 then none else some infoA
    encJpeg := fun _ _ _ _ => none
    encPng := fun _ _ _ => none
    encWebp := fun _ _ => none }

/-- One 10-byte JPEG at `a.jpg`, nothing else. -/
def fsA : FS := fun l => if l = Loc.src "a.jpg" then some (bs 10) else none

/-- One JPEG of exactly 1024 bytes (= 1 KB) at `a.jpg`. -/
def fsKB : FS := fun l => if l = Loc.src "a.jpg" then some (bs 1024) else none

/-- `a.jpg` plus a pre-existing backup of different content at its mirrored
backup path. -/
def fsB : FS :=
  fun l =>
    if l = Loc.src "a.jpg" then some (bs 10)
    else if l = Loc.bak "a.jpg" then some (bs 3) else none

/-- One 2-byte PNG, below `cfgW`'s 4-byte threshold. -/
def fsS : FS := fun l => if l = Loc.src "s.png" then some (bs 2) else none

/-- Three JPEGs of sizes 9 > 7 > 6 bytes. -/
def fs3 : FS :=
  fun l =>
    if l = Loc.src "a.jpg" then some (bs 6)
    else if l = Loc.src "b.jpg" then some (bs 9)
    else if l = Loc.src "c.jpg" then some (bs 7) else none

/-- Nine decodable JPEGs. -/
def goodNames : List String :=
  ["f0.jpg", "f1.jpg", "f2.jpg", "f3.jpg", "f4.jpg",
   "f5.jpg", "f6.jpg", "f7.jpg", "f8.jpg"]

/-- Ten files: nine decodable 10-byte JPEGs and one 7-byte file `bad.jpg`
that `pilE` cannot decode. -/
def fs10 : FS :=
  fun l =>
    if l = Loc.src "bad.jpg" then some (bs 7)
    else if goodNames.any (fun s => decide (l = Loc.src s)) then some (bs 10)
    else none

/-! ### Basic lemmas about the filesystem and the WebP step -/

theorem FS.set_self (fs : FS) (l : Loc) (v : Option Bytes) : fs.set l v l = v := by
  simp [FS.set]

theorem FS.set_ne (fs : FS) (l : Loc) (v : Option Bytes) (l' : Loc) (h : l' ≠ l) :
    fs.set l v l' = fs l' := by
  simp [FS.set, h]

theorem webpStep_outcome (pil : PIL) (cfg : Config) (fs : FS) (rel : String)
    (st : Stats) (out : Outcome) : (webpStep pil cfg fs rel st out).2.2 = out := by
  unfold webpStep
  cases h : fs (Loc.src rel) with
  | none => simp only [h]
  | some cur =>
    cases hw : pil.encWebp cur cfg.webp_quality with
    | none => simp only [h, hw]
    | some wb => simp only [h, hw]

theorem webpStep_fs_ne (pil : PIL) (cfg : Config) (fs : FS) (rel : String)
    (st : Stats) (out : Outcome) (l : Loc) (h : l ≠ Loc.webp rel) :
    (webpStep pil cfg fs rel st out).1 l = fs l := by
  unfold webpStep
  cases hs : fs (Loc.src rel) with
  | none => simp only
  | some cur =>
    cases hw : pil.encWebp cur cfg.webp_quality with
    | none => simp only [hs, hw]
    | some wb =>
      simp only [hs, hw]
      exact FS.set_ne fs (Loc.webp rel) (some wb) l h

theorem webpStep_counts (pil : PIL) (cfg : Config) (fs : FS) (rel : String)
    (st : Stats) (out : Outcome) :
    (webpStep pil cfg fs rel st out).2.1.processed = st.processed ∧
    (webpStep pil cfg fs rel st out).2.1.skipped = st.skipped ∧
    (webpStep pil cfg fs rel st out).2.1.errors = st.errors ∧
    (webpStep pil cfg fs rel st out).2.1.original_size = st.original_size ∧
    (webpStep pil cfg fs rel st out).2.1.new_size = st.new_size := by
  unfold webpStep
  cases hs : fs (Loc.src rel) with
  | none => simp [hs]
  | some cur =>
    cases hw : pil.encWebp cur cfg.webp_quality with
    | none => simp [hs, hw]
    | some wb => simp [hs, hw]

theorem webpStep_created (pil : PIL) (cfg : Config) (fs : FS) (rel : String)
    (st : Stats) (out : Outcome) (cur : Bytes) (hs : fs (Loc.src rel) = some cur) :
    (∀ wb, pil.encWebp cur cfg.webp_quality = some wb →
      (webpStep pil cfg fs rel st out).1 (Loc.webp rel) = some wb ∧
      (webpStep pil cfg fs rel st out).2.1.webp_created = st.webp_created + 1) ∧
    (pil.encWebp cur cfg.webp_quality = none →
      (webpStep pil cfg fs rel st out).1 (Loc.webp rel) = fs (Loc.webp rel) ∧
      (webpStep pil cfg fs rel st out).2.1.webp_created = st.webp_created) := by
  unfold webpStep
  constructor
  · intro wb hw
    simp only [hs, hw]
    refine ⟨FS.set_self fs (Loc.webp rel) (some wb), by simp⟩
  · intro hw
    simp [hs, hw]

/-! ### Branch analysis of `process_image` -/

theorem Loc.ne_of_relOf_ne (l : Loc) (rel : String) (h : l.relOf ≠ rel) :
    l ≠ Loc.src rel ∧ l ≠ Loc.bak rel ∧ l ≠ Loc.webp rel ∧ l ≠ Loc.tmp rel := by
  refine ⟨?_, ?_, ?_, ?_⟩ <;> rintro rfl <;> exact h rfl

/-- Exhaustive description of `process_image`: exactly one of the seven
branches of the source applies, and in each branch the returned triple is
given explicitly. -/
theorem process_image_cases (pil : PIL) (cfg : Config) (fs : FS) (rel : String)
    (dry : Bool) (st : Stats) :
    (fs (Loc.src rel) = none ∧
      process_image pil cfg fs rel dry st = (fs, st, Outcome.fileMissing)) ∨
    (∃ orig, fs (Loc.src rel) = some orig ∧
      ((orig.length < cfg.skip_small ∧
        process_image pil cfg fs rel dry st =
          (fs, { st with original_size := st.original_size + orig.length,
                         skipped := st.skipped + 1 }, Outcome.skippedSmall)) ∨
      (¬ orig.length < cfg.skip_small ∧
        ((pil.decode orig = none ∧
          process_image pil cfg fs rel dry st =
            (fs, { st with original_size := st.original_size + orig.length,
                           errors := st.errors + 1 }, Outcome.errored)) ∨
        ((∃ info, pil.decode orig = some info) ∧
          ((dry = true ∧
            process_image pil cfg fs rel dry st =
              (fs, { st with original_size := st.original_size + orig.length,
                             processed := st.processed + 1,
                             new_size := st.new_size + orig.length },
                Outcome.dryProcessed)) ∨
          (dry = false ∧
            ((∃ nb, reencode pil cfg (suffixLower rel) orig = some nb ∧
              ((cfg.min_savings ≤ savingsOf orig.length nb.length ∧
                process_image pil cfg fs rel dry st =
                  webpStep pil cfg
                    (((if fs (Loc.bak rel) = none then
                        (fs.set (Loc.tmp rel) (some nb)).set (Loc.bak rel) (some orig)
                      else
                        fs.set (Loc.tmp rel) (some nb)).set (Loc.src rel)
                          (some nb)).set (Loc.tmp rel) none)
                    rel
                    { st with original_size := st.original_size + orig.length,
                              new_size := st.new_size + nb.length,
                              processed := st.processed + 1 } Outcome.replaced) ∨
              (¬ cfg.min_savings ≤ savingsOf orig.length nb.length ∧
                process_image pil cfg fs rel dry st =
                  webpStep pil cfg
                    ((fs.set (Loc.tmp rel) (some nb)).set (Loc.tmp rel) none) rel
                    { st with original_size := st.original_size + orig.length,
                              new_size := st.new_size + orig.length,
                              skipped := st.skipped + 1 } Outcome.keptOriginal))) ∨
            (reencode pil cfg (suffixLower rel) orig = none ∧
              process_image pil cfg fs rel dry st =
                webpStep pil cfg
                  (if fs (Loc.tmp rel) ≠ none then fs.set (Loc.tmp rel) none else fs) rel
                  { st with original_size := st.original_size + orig.length,
                            new_size := st.new_size + orig.length }
                  Outcome.noReencode))))))))) := by
  cases hsrc : fs (Loc.src rel) with
  | none =>
    left
    refine ⟨rfl, ?_⟩
    unfold process_image
    simp only [hsrc]
  | some orig =>
    right
    refine ⟨orig, rfl, ?_⟩
    by_cases hsz : orig.length < cfg.skip_small
    · left
      refine ⟨hsz, ?_⟩
      unfold process_image
      simp only [hsrc]
      rw [if_pos hsz]
    · right
      refine ⟨hsz, ?_⟩
      cases hdec : pil.decode orig with
      | none =>
        left
        refine ⟨rfl, ?_⟩
        unfold process_image
        simp only [hsrc, hdec]
        rw [if_neg hsz]
      | some info =>
        right
        refine ⟨⟨info, rfl⟩, ?_⟩
        cases dry with
        | true =>
          left
          refine ⟨rfl, ?_⟩
          unfold process_image
          simp only [hsrc, hdec]
          rw [if_neg hsz]
          simp only [if_true]
        | false =>
          right
          refine ⟨rfl, ?_⟩
          cases henc : reencode pil cfg (suffixLower rel) orig with
          | none =>
            right
            refine ⟨rfl, ?_⟩
            unfold process_image
            simp only [hsrc, hdec, henc]
            rw [if_neg hsz]
            simp only [Bool.false_eq_true, if_false]
          | some nb =>
            left
            refine ⟨nb, rfl, ?_⟩
            by_cases hsav : cfg.min_savings ≤ savingsOf orig.length nb.length
            · left
              refine ⟨hsav, ?_⟩
              unfold process_image
              simp only [hsrc, hdec, henc]
              rw [if_neg hsz]
              simp only [Bool.false_eq_true, if_false]
              rw [if_pos hsav]
              have hbt : (fs.set (Loc.tmp rel) (some nb)) (Loc.bak rel) = fs (Loc.bak rel) := by
                simp [FS.set]
              rw [hbt]
            · right
              refine ⟨hsav, ?_⟩
              unfold process_image
              simp only [hsrc, hdec, henc]
              rw [if_neg hsz]
              simp only [Bool.false_eq_true, if_false]
              rw [if_neg hsav]

theorem Loc.bak_ne_src (r s : String) : Loc.bak r ≠ Loc.src s := fun h => Loc.noConfusion h

theorem Loc.bak_ne_webp (r s : String) : Loc.bak r ≠ Loc.webp s := fun h => Loc.noConfusion h

theorem Loc.bak_ne_tmp (r s : String) : Loc.bak r ≠ Loc.tmp s := fun h => Loc.noConfusion h

theorem Loc.src_ne_webp (r s : String) : Loc.src r ≠ Loc.webp s := fun h => Loc.noConfusion h

theorem Loc.src_ne_tmp (r s : String) : Loc.src r ≠ Loc.tmp s := fun h => Loc.noConfusion h

theorem Loc.src_ne_bak (r s : String) : Loc.src r ≠ Loc.bak s := fun h => Loc.noConfusion h

theorem Loc.tmp_ne_webp (r s : String) : Loc.tmp r ≠ Loc.webp s := fun h => Loc.noConfusion h

/-- Processing one file touches no location of any other path. -/
theorem process_image_frame (pil : PIL) (cfg : Config) (fs : FS) (rel : String)
    (dry : Bool) (st : Stats) (l : Loc) (hl : l.relOf ≠ rel) :
    (process_image pil cfg fs rel dry st).1 l = fs l := by
  obtain ⟨h1, h2, h3, h4⟩ := Loc.ne_of_relOf_ne l rel hl
  rcases process_image_cases pil cfg fs rel dry st with
    ⟨hsrc, hE⟩ |
    ⟨orig, hsrc, ⟨hsz, hE⟩ | ⟨hsz, ⟨hdec, hE⟩ | ⟨⟨info, hdec⟩, ⟨hdry, hE⟩ |
      ⟨hdry, ⟨nb, henc, ⟨hsav, hE⟩ | ⟨hsav, hE⟩⟩ | ⟨henc, hE⟩⟩⟩⟩⟩
  · rw [hE]
  · rw [hE]
  · rw [hE]
  · rw [hE]
  · rw [hE, webpStep_fs_ne _ _ _ _ _ _ _ h3,
      FS.set_ne _ _ _ _ h4, FS.set_ne _ _ _ _ h1]
    by_cases hb : fs (Loc.bak rel) = none
    · rw [if_pos hb, FS.set_ne _ _ _ _ h2, FS.set_ne _ _ _ _ h4]
    · rw [if_neg hb, FS.set_ne _ _ _ _ h4]
  · rw [hE, webpStep_fs_ne _ _ _ _ _ _ _ h3,
      FS.set_ne _ _ _ _ h4, FS.set_ne _ _ _ _ h4]
  · rw [hE, webpStep_fs_ne _ _ _ _ _ _ _ h3]
    by_cases ht : fs (Loc.tmp rel) ≠ none
    · rw [if_pos ht, FS.set_ne _ _ _ _ h4]
    · rw [if_neg ht]

/-- An existing backup is never overwritten (nor deleted) by processing any
file, in any mode. -/
theorem process_image_bak_preserve (pil : PIL) (cfg : Config) (fs : FS) (rel : String)
    (dry : Bool) (st : Stats) (r : String) (b : Bytes)
    (h : fs (Loc.bak r) = some b) :
    (process_image pil cfg fs rel dry st).1 (Loc.bak r) = some b := by
  rcases process_image_cases pil cfg fs rel dry st with
    ⟨hsrc, hE⟩ |
    ⟨orig, hsrc, ⟨hsz, hE⟩ | ⟨hsz, ⟨hdec, hE⟩ | ⟨⟨info, hdec⟩, ⟨hdry, hE⟩ |
      ⟨hdry, ⟨nb, henc, ⟨hsav, hE⟩ | ⟨hsav, hE⟩⟩ | ⟨henc, hE⟩⟩⟩⟩⟩
  · rw [hE]; exact h
  · rw [hE]; exact h
  · rw [hE]; exact h
  · rw [hE]; exact h
  · rw [hE, webpStep_fs_ne _ _ _ _ _ _ _ (Loc.bak_ne_webp r rel),
      FS.set_ne _ _ _ _ (Loc.bak_ne_tmp r rel), FS.set_ne _ _ _ _ (Loc.bak_ne_src r rel)]
    by_cases hbr : fs (Loc.bak rel) = none
    · rw [if_pos hbr]
      by_cases hrr : r = rel
      · subst hrr
        rw [h] at hbr
        cases hbr
      · rw [FS.set_ne _ _ _ _ (fun hh => hrr (Loc.bak.inj hh)),
          FS.set_ne _ _ _ _ (Loc.bak_ne_tmp r rel)]
        exact h
    · rw [if_neg hbr, FS.set_ne _ _ _ _ (Loc.bak_ne_tmp r rel)]
      exact h
  · rw [hE, webpStep_fs_ne _ _ _ _ _ _ _ (Loc.bak_ne_webp r rel),
      FS.set_ne _ _ _ _ (Loc.bak_ne_tmp r rel), FS.set_ne _ _ _ _ (Loc.bak_ne_tmp r rel)]
    exact h
  · rw [hE, webpStep_fs_ne _ _ _ _ _ _ _ (Loc.bak_ne_webp r rel)]
    by_cases ht : fs (Loc.tmp rel) ≠ none
    · rw [if_pos ht, FS.set_ne _ _ _ _ (Loc.bak_ne_tmp r rel)]
      exact h
    · rw [if_neg ht]
      exact h

/-- Processing never leaves a temp `.opt` file behind: a path whose temp slot
is empty before a file is processed is empty after it. -/
theorem process_image_tmp_clean (pil : PIL) (cfg : Config) (fs : FS) (rel : String)
    (dry : Bool) (st : Stats) (r : String) (h : fs (Loc.tmp r) = none) :
    (process_image pil cfg fs rel dry st).1 (Loc.tmp r) = none := by
  by_cases hrr : r = rel
  case neg =>
    rw [process_image_frame pil cfg fs rel dry st (Loc.tmp r) hrr]
    exact h
  case pos =>
    subst hrr
    rcases process_image_cases pil cfg fs r dry st with
      ⟨hsrc, hE⟩ |
      ⟨orig, hsrc, ⟨hsz, hE⟩ | ⟨hsz, ⟨hdec, hE⟩ | ⟨⟨info, hdec⟩, ⟨hdry, hE⟩ |
        ⟨hdry, ⟨nb, henc, ⟨hsav, hE⟩ | ⟨hsav, hE⟩⟩ | ⟨henc, hE⟩⟩⟩⟩⟩
    · rw [hE]; exact h
    · rw [hE]; exact h
    · rw [hE]; exact h
    · rw [hE]; exact h
    · rw [hE, webpStep_fs_ne _ _ _ _ _ _ _ (Loc.tmp_ne_webp r r)]
      exact FS.set_self _ _ _
    · rw [hE, webpStep_fs_ne _ _ _ _ _ _ _ (Loc.tmp_ne_webp r r)]
      exact FS.set_self _ _ _
    · rw [hE, webpStep_fs_ne _ _ _ _ _ _ _ (Loc.tmp_ne_webp r r)]
      by_cases ht : fs (Loc.tmp r) ≠ none
      · rw [if_pos ht]
        exact FS.set_self _ _ _
      · rw [if_neg ht]
        exact h

/-- The error counter goes up by one exactly when the file's outcome is
`errored`. -/
theorem process_image_errors_indicator (pil : PIL) (cfg : Config) (fs : FS)
    (rel : String) (dry : Bool) (st : Stats) :
    (process_image pil cfg fs rel dry st).2.1.errors =
      st.errors +
        (if (process_image pil cfg fs rel dry st).2.2 = Outcome.errored then 1 else 0) := by
  rcases process_image_cases pil cfg fs rel dry st with
    ⟨hsrc, hE⟩ |
    ⟨orig, hsrc, ⟨hsz, hE⟩ | ⟨hsz, ⟨hdec, hE⟩ | ⟨⟨info, hdec⟩, ⟨hdry, hE⟩ |
      ⟨hdry, ⟨nb, henc, ⟨hsav, hE⟩ | ⟨hsav, hE⟩⟩ | ⟨henc, hE⟩⟩⟩⟩⟩
  · rw [hE]; simp
  · rw [hE]; simp
  · rw [hE]; simp
  · rw [hE]; simp
  · rw [hE, webpStep_outcome, (webpStep_counts pil cfg _ rel _ _).2.2.1]; simp
  · rw [hE, webpStep_outcome, (webpStep_counts pil cfg _ rel _ _).2.2.1]; simp
  · rw [hE, webpStep_outcome, (webpStep_counts pil cfg _ rel _ _).2.2.1]; simp

/-- In dry-run mode a single file changes nothing on disk and bumps exactly
one of the three counters, accumulating the file's size. -/
theorem process_image_dry_step (pil : PIL) (cfg : Config) (fs : FS) (rel : String)
    (st : Stats) (orig : Bytes) (hsrc : fs (Loc.src rel) = some orig) :
    (process_image pil cfg fs rel true st).1 = fs ∧
    (process_image pil cfg fs rel true st).2.1.processed +
      (process_image pil cfg fs rel true st).2.1.skipped +
      (process_image pil cfg fs rel true st).2.1.errors
        = st.processed + st.skipped + st.errors + 1 ∧
    (process_image pil cfg fs rel true st).2.1.original_size
        = st.original_size + orig.length := by
  rcases process_image_cases pil cfg fs rel true st with
    ⟨hsrc', hE⟩ |
    ⟨orig', hsrc', ⟨hsz, hE⟩ | ⟨hsz, ⟨hdec, hE⟩ | ⟨⟨info, hdec⟩, ⟨hdry, hE⟩ |
      ⟨hdry, _⟩⟩⟩⟩
  · rw [hsrc] at hsrc'; cases hsrc'
  · rw [hsrc] at hsrc'
    injection hsrc' with he
    subst he
    rw [hE]
    refine ⟨rfl, ?_, rfl⟩
    show st.processed + (st.skipped + 1) + st.errors = st.processed + st.skipped + st.errors + 1
    omega
  · rw [hsrc] at hsrc'
    injection hsrc' with he
    subst he
    rw [hE]
    refine ⟨rfl, ?_, rfl⟩
    show st.processed + st.skipped + (st.errors + 1) = st.processed + st.skipped + st.errors + 1
    omega
  · rw [hsrc] at hsrc'
    injection hsrc' with he
    subst he
    rw [hE]
    refine ⟨rfl, ?_, rfl⟩
    show st.processed + 1 + st.skipped + st.errors = st.processed + st.skipped + st.errors + 1
    omega
  · cases hdry

/-- A file below the size threshold is skipped: nothing on disk changes,
only `original_size` and the skip counter move (any mode). -/
theorem process_image_small_eq (pil : PIL) (cfg : Config) (fs : FS) (rel : String)
    (dry : Bool) (st : Stats) (orig : Bytes)
    (hsrc : fs (Loc.src rel) = some orig)
    (hsmall : orig.length < cfg.skip_small) :
    process_image pil cfg fs rel dry st =
      (fs, { st with original_size := st.original_size + orig.length,
                     skipped := st.skipped + 1 }, Outcome.skippedSmall) := by
  rcases process_image_cases pil cfg fs rel dry st with
    ⟨hsrc', hE⟩ |
    ⟨orig', hsrc', ⟨hsz, hE⟩ | ⟨hsz, _⟩⟩
  · rw [hsrc] at hsrc'; cases hsrc'
  · rw [hsrc] at hsrc'
    injection hsrc' with he
    subst he
    exact hE
  · rw [hsrc] at hsrc'
    injection hsrc' with he
    subst he
    exact absurd hsmall hsz

/-- A file whose bytes cannot be decoded is an error: nothing on disk
changes, only `original_size` and the error counter move (any mode). -/
theorem process_image_error_eq (pil : PIL) (cfg : Config) (fs : FS) (rel : String)
    (dry : Bool) (st : Stats) (orig : Bytes)
    (hsrc : fs (Loc.src rel) = some orig)
    (hbig : ¬ orig.length < cfg.skip_small)
    (hdec : pil.decode orig = none) :
    process_image pil cfg fs rel dry st =
      (fs, { st with original_size := st.original_size + orig.length,
                     errors := st.errors + 1 }, Outcome.errored) := by
  rcases process_image_cases pil cfg fs rel dry st with
    ⟨hsrc', hE⟩ |
    ⟨orig', hsrc', ⟨hsz, hE⟩ | ⟨hsz, ⟨hdec', hE⟩ | ⟨⟨info, hdec'⟩, _⟩⟩⟩
  · rw [hsrc] at hsrc'; cases hsrc'
  · rw [hsrc] at hsrc'
    injection hsrc' with he
    subst he
    exact absurd hsz hbig
  · rw [hsrc] at hsrc'
    injection hsrc' with he
    subst he
    exact hE
  · rw [hsrc] at hsrc'
    injection hsrc' with he
    subst he
    rw [hdec] at hdec'
    cases hdec'

/-- A decodable file under dry run is recorded as processed with its own
size as the new size, and nothing is written. -/
theorem process_image_dry_eq (pil : PIL) (cfg : Config) (fs : FS) (rel : String)
    (st : Stats) (orig : Bytes) (info : ImageInfo)
    (hsrc : fs (Loc.src rel) = some orig)
    (hbig : ¬ orig.length < cfg.skip_small)
    (hdec : pil.decode orig = some info) :
    process_image pil cfg fs rel true st =
      (fs, { st with original_size := st.original_size + orig.length,
                     processed := st.processed + 1,
                     new_size := st.new_size + orig.length }, Outcome.dryProcessed) := by
  rcases process_image_cases pil cfg fs rel true st with
    ⟨hsrc', hE⟩ |
    ⟨orig', hsrc', ⟨hsz, hE⟩ | ⟨hsz, ⟨hdec', hE⟩ | ⟨⟨info', hdec'⟩, ⟨hdry, hE⟩ |
      ⟨hdry, _⟩⟩⟩⟩
  · rw [hsrc] at hsrc'; cases hsrc'
  · rw [hsrc] at hsrc'
    injection hsrc' with he
    subst he
    exact absurd hsz hbig
  · rw [hsrc] at hsrc'
    injection hsrc' with he
    subst he
    rw [hdec] at hdec'
    cases hdec'
  · rw [hsrc] at hsrc'
    injection hsrc' with he
    subst he
    exact hE
  · cases hdry

/-! ### Batch-level lemmas -/

theorem runBatchAux_length (pil : PIL) (cfg : Config) (dry : Bool) :
    ∀ (rels : List String) (fs : FS) (st : Stats),
      (runBatchAux pil cfg dry fs st rels).2.2.length = rels.length := by
  intro rels
  induction rels with
  | nil => intro fs st; rfl
  | cons rel rest ih =>
    intro fs st
    unfold runBatchAux
    simp only [List.length_cons]
    rw [ih]

theorem runBatchAux_errors (pil : PIL) (cfg : Config) (dry : Bool) :
    ∀ (rels : List String) (fs : FS) (st : Stats),
      (runBatchAux pil cfg dry fs st rels).2.1.errors =
        st.errors +
          (runBatchAux pil cfg dry fs st rels).2.2.countP
            (fun o => decide (o = Outcome.errored)) := by
  intro rels
  induction rels with
  | nil => intro fs st; simp [runBatchAux]
  | cons rel rest ih =>
    intro fs st
    unfold runBatchAux
    simp only [List.countP_cons]
    rw [ih]
    rw [process_image_errors_indicator pil cfg fs rel dry st]
    by_cases ho : (process_image pil cfg fs rel dry st).2.2 = Outcome.errored
    · simp [ho]
      omega
    · simp [ho]

theorem runBatchAux_bak_preserve (pil : PIL) (cfg : Config) (dry : Bool) :
    ∀ (rels : List String) (fs : FS) (st : Stats) (r : String) (b : Bytes),
      fs (Loc.bak r) = some b →
      (runBatchAux pil cfg dry fs st rels).1 (Loc.bak r) = some b := by
  intro rels
  induction rels with
  | nil => intro fs st r b h; exact h
  | cons rel rest ih =>
    intro fs st r b h
    unfold runBatchAux
    exact ih _ _ r b (process_image_bak_preserve pil cfg fs rel dry st r b h)

theorem runBatchAux_tmp_clean (pil : PIL) (cfg : Config) (dry : Bool) :
    ∀ (rels : List String) (fs : FS) (st : Stats),
      (∀ s, fs (Loc.tmp s) = none) →
      ∀ s, (runBatchAux pil cfg dry fs st rels).1 (Loc.tmp s) = none := by
  intro rels
  induction rels with
  | nil => intro fs st h s; exact h s
  | cons rel rest ih =>
    intro fs st h s
    unfold runBatchAux
    exact ih _ _ (fun s' => process_image_tmp_clean pil cfg fs rel dry st s' (h s')) s

theorem runBatchAux_dry (pil : PIL) (cfg : Config) :
    ∀ (rels : List String) (fs : FS) (st : Stats),
      (∀ rel ∈ rels, (fs (Loc.src rel)).isSome) →
      (runBatchAux pil cfg true fs st rels).1 = fs ∧
      (runBatchAux pil cfg true fs st rels).2.1.processed +
        (runBatchAux pil cfg true fs st rels).2.1.skipped +
        (runBatchAux pil cfg true fs st rels).2.1.errors
          = st.processed + st.skipped + st.errors + rels.length ∧
      (runBatchAux pil cfg true fs st rels).2.1.original_size
          = st.original_size +
              (rels.map fun rel => ((fs (Loc.src rel)).getD []).length).sum := by
  intro rels
  induction rels with
  | nil => intro fs st _; exact ⟨rfl, rfl, rfl⟩
  | cons rel rest ih =>
    intro fs st hall
    obtain ⟨orig, hsrc⟩ := Option.isSome_iff_exists.mp (hall rel (List.mem_cons_self rel rest))
    obtain ⟨hfs, hcnt, hsz⟩ := process_image_dry_step pil cfg fs rel st orig hsrc
    unfold runBatchAux
    obtain ⟨ihfs, ihcnt, ihsz⟩ :=
      ih (process_image pil cfg fs rel true st).1 (process_image pil cfg fs rel true st).2.1
        (by rw [hfs]; exact fun r hr => hall r (List.mem_cons_of_mem rel hr))
    refine ⟨by rw [ihfs, hfs], ?_, ?_⟩
    · rw [ihcnt, hcnt, List.length_cons]
      omega
    · rw [ihsz, hsz, hfs, List.map_cons, List.sum_cons, hsrc]
      rw [Option.getD_some]
      omega

theorem runBatchAux_all_small (pil : PIL) (cfg : Config) (dry : Bool) :
    ∀ (rels : List String) (fs : FS) (st : Stats),
      (∀ rel ∈ rels, ∃ b, fs (Loc.src rel) = some b ∧ b.length < cfg.skip_small) →
      (runBatchAux pil cfg dry fs st rels).1 = fs ∧
      (runBatchAux pil cfg dry fs st rels).2.1.new_size = st.new_size := by
  intro rels
  induction rels with
  | nil => intro fs st _; exact ⟨rfl, rfl⟩
  | cons rel rest ih =>
    intro fs st hall
    obtain ⟨b, hsrc, hsmall⟩ := hall rel (List.mem_cons_self rel rest)
    have hE := process_image_small_eq pil cfg fs rel dry st b hsrc hsmall
    unfold runBatchAux
    rw [hE]
    exact ih fs _ (fun r hr => hall r (List.mem_cons_of_mem rel hr))

/-! ### The claims -/

/-- C1: a processed file whose re-encode produced bytes is overwritten with
them iff the fractional size reduction is at least `min_savings`; below the
minimum the re-encoded bytes are discarded, the source file keeps its
original content, and the outcome is `keptOriginal`.  Being below the
minimum is the same as the re-encoded-to-original size ratio exceeding
`1 - min_savings`. -/
theorem claim1_replace_iff_min_savings (pil : PIL) (cfg : Config) (fs : FS)
    (rel : String) (st : Stats) (orig newBytes : Bytes) (info : ImageInfo)
    (hsrc : fs (Loc.src rel) = some orig)
    (hbig : ¬ orig.length < cfg.skip_small)
    (hdec : pil.decode orig = some info)
    (henc : reencode pil cfg (suffixLower rel) orig = some newBytes) :
    (cfg.min_savings ≤ savingsOf orig.length newBytes.length →
      (process_image pil cfg fs rel false st).1 (Loc.src rel) = some newBytes ∧
      (process_image pil cfg fs rel false st).2.2 = Outcome.replaced) ∧
    (savingsOf orig.length newBytes.length < cfg.min_savings →
      (process_image pil cfg fs rel false st).1 (Loc.src rel) = some orig ∧
      (process_image pil cfg fs rel false st).2.2 = Outcome.keptOriginal) ∧
    (0 < orig.length →
      (savingsOf orig.length newBytes.length < cfg.min_savings ↔
        1 - cfg.min_savings < (newBytes.length : ℚ) / (orig.length : ℚ))) := by
  refine ⟨?_, ?_, ?_⟩
  · intro hsav
    rcases process_image_cases pil cfg fs rel false st with
      ⟨hsrc', hE⟩ |
      ⟨orig', hsrc', ⟨hsz, hE⟩ | ⟨hsz, ⟨hdec', hE⟩ | ⟨⟨info', hdec'⟩, ⟨hdry, hE⟩ |
        ⟨hdry, ⟨nb, henc', ⟨hsav', hE⟩ | ⟨hsav', hE⟩⟩ | ⟨henc', hE⟩⟩⟩⟩⟩
    · rw [hsrc] at hsrc'; cases hsrc'
    · rw [hsrc] at hsrc'; injection hsrc' with he; subst he; exact absurd hsz hbig
    · rw [hsrc] at hsrc'; injection hsrc' with he; subst he
      rw [hdec] at hdec'; cases hdec'
    · cases hdry
    · rw [hsrc] at hsrc'; injection hsrc' with he; subst he
      rw [henc] at henc'; injection henc' with he2; subst he2
      constructor
      · rw [hE, webpStep_fs_ne _ _ _ _ _ _ _ (Loc.src_ne_webp rel rel),
          FS.set_ne _ _ _ _ (Loc.src_ne_tmp rel rel), FS.set_self]
      · rw [hE, webpStep_outcome]
    · rw [hsrc] at hsrc'; injection hsrc' with he; subst he
      rw [henc] at henc'; injection henc' with he2; subst he2
      exact absurd hsav hsav'
    · rw [hsrc] at hsrc'; injection hsrc' with he; subst he
      rw [henc] at henc'; cases henc'
  · intro hsav
    rcases process_image_cases pil cfg fs rel false st with
      ⟨hsrc', hE⟩ |
      ⟨orig', hsrc', ⟨hsz, hE⟩ | ⟨hsz, ⟨hdec', hE⟩ | ⟨⟨info', hdec'⟩, ⟨hdry, hE⟩ |
        ⟨hdry, ⟨nb, henc', ⟨hsav', hE⟩ | ⟨hsav', hE⟩⟩ | ⟨henc', hE⟩⟩⟩⟩⟩
    · rw [hsrc] at hsrc'; cases hsrc'
    · rw [hsrc] at hsrc'; injection hsrc' with he; subst he; exact absurd hsz hbig
    · rw [hsrc] at hsrc'; injection hsrc' with he; subst he
      rw [hdec] at hdec'; cases hdec'
    · cases hdry
    · rw [hsrc] at hsrc'; injection hsrc' with he; subst he
      rw [henc] at henc'; injection henc' with he2; subst he2
      exact absurd hsav' (not_le.mpr hsav)
    · rw [hsrc] at hsrc'; injection hsrc' with he; subst he
      rw [henc] at henc'; injection henc' with he2; subst he2
      constructor
      · rw [hE, webpStep_fs_ne _ _ _ _ _ _ _ (Loc.src_ne_webp rel rel),
          FS.set_ne _ _ _ _ (Loc.src_ne_tmp rel rel), FS.set_ne _ _ _ _ (Loc.src_ne_tmp rel rel)]
        exact hsrc
      · rw [hE, webpStep_outcome]
    · rw [hsrc] at hsrc'; injection hsrc' with he; subst he
      rw [henc] at henc'; cases henc'
  · intro hpos
    have ho : (0 : ℚ) < (orig.length : ℚ) := by exact_mod_cast hpos
    unfold savingsOf
    rw [div_lt_iff ho, lt_div_iff ho]
    constructor <;> intro hh <;> nlinarith

/-- Witness for C1: a 10-byte JPEG whose re-encode is 5 bytes (50 percent
savings, above the 10 percent minimum) is replaced. -/
theorem claim1_witness :
    (process_image pilA cfgW fsA "a.jpg" false Stats.start).1 (Loc.src "a.jpg") = some (bs 5) ∧
    (process_image pilA cfgW fsA "a.jpg" false Stats.start).2.2 = Outcome.replaced :=
  (claim1_replace_iff_min_savings pilA cfgW fsA "a.jpg" Stats.start (bs 10) (bs 5) infoA
    (by decide) (by decide) (by decide) (by decide)).1
    (by norm_num [cfgW, savingsOf, bs, List.length_replicate])

/-- C2: when a replacement happens and no backup existed, the backup slot
receives exactly the pre-run original bytes; a backup that already exists is
left unchanged by the processing of that file and by any later batch run,
in any mode. -/
theorem claim2_backup_idempotent (pil : PIL) (cfg : Config) (fs : FS)
    (rel : String) (st : Stats) (orig newBytes : Bytes) (info : ImageInfo)
    (hsrc : fs (Loc.src rel) = some orig)
    (hbig : ¬ orig.length < cfg.skip_small)
    (hdec : pil.decode orig = some info)
    (henc : reencode pil cfg (suffixLower rel) orig = some newBytes)
    (hsav : cfg.min_savings ≤ savingsOf orig.length newBytes.length) :
    (fs (Loc.bak rel) = none →
      (process_image pil cfg fs rel false st).1 (Loc.bak rel) = some orig) ∧
    (∀ b, fs (Loc.bak rel) = some b →
      (process_image pil cfg fs rel false st).1 (Loc.bak rel) = some b) ∧
    (∀ rels dry b, fs (Loc.bak rel) = some b →
      (runBatch pil cfg fs rels dry).1 (Loc.bak rel) = some b) := by
  have hrepl :
      process_image pil cfg fs rel false st =
        webpStep pil cfg
          (((if fs (Loc.bak rel) = none then
              (fs.set (Loc.tmp rel) (some newBytes)).set (Loc.bak rel) (some orig)
            else
              fs.set (Loc.tmp rel) (some newBytes)).set (Loc.src rel)
                (some newBytes)).set (Loc.tmp rel) none)
          rel
          { st with original_size := st.original_size + orig.length,
                    new_size := st.new_size + newBytes.length,
                    processed := st.processed + 1 } Outcome.replaced := by
    rcases process_image_cases pil cfg fs rel false st with
      ⟨hsrc', hE⟩ |
      ⟨orig', hsrc', ⟨hsz, hE⟩ | ⟨hsz, ⟨hdec', hE⟩ | ⟨⟨info', hdec'⟩, ⟨hdry, hE⟩ |
        ⟨hdry, ⟨nb, henc', ⟨hsav', hE⟩ | ⟨hsav', hE⟩⟩ | ⟨henc', hE⟩⟩⟩⟩⟩
    · rw [hsrc] at hsrc'; cases hsrc'
    · rw [hsrc] at hsrc'; injection hsrc' with he; subst he; exact absurd hsz hbig
    · rw [hsrc] at hsrc'; injection hsrc' with he; subst he
      rw [hdec] at hdec'; cases hdec'
    · cases hdry
    · rw [hsrc] at hsrc'; injection hsrc' with he; subst he
      rw [henc] at henc'; injection henc' with he2; subst he2
      exact hE
    · rw [hsrc] at hsrc'; injection hsrc' with he; subst he
      rw [henc] at henc'; injection henc' with he2; subst he2
      exact absurd hsav hsav'
    · rw [hsrc] at hsrc'; injection hsrc' with he; subst he
      rw [henc] at henc'; cases henc'
  refine ⟨?_, ?_, ?_⟩
  · intro hb
    rw [hrepl, webpStep_fs_ne _ _ _ _ _ _ _ (Loc.bak_ne_webp rel rel),
      FS.set_ne _ _ _ _ (Loc.bak_ne_tmp rel rel), FS.set_ne _ _ _ _ (Loc.bak_ne_src rel rel),
      if_pos hb, FS.set_self]
  · intro b hb
    rw [hrepl, webpStep_fs_ne _ _ _ _ _ _ _ (Loc.bak_ne_webp rel rel),
      FS.set_ne _ _ _ _ (Loc.bak_ne_tmp rel rel), FS.set_ne _ _ _ _ (Loc.bak_ne_src rel rel),
      if_neg (by rw [hb]; exact fun hh => Option.noConfusion hh),
      FS.set_ne _ _ _ _ (Loc.bak_ne_tmp rel rel)]
    exact hb
  · intro rels dry b hb
    unfold runBatch
    exact runBatchAux_bak_preserve pil cfg dry rels fs Stats.start rel b hb

/-- Witness for C2: replacing `a.jpg` creates a backup with the 10 original
bytes when none exists, and leaves a pre-existing 3-byte backup untouched. -/
theorem claim2_witness :
    (process_image pilA cfgW fsA "a.jpg" false Stats.start).1 (Loc.bak "a.jpg") = some (bs 10) ∧
    (process_image pilA cfgW fsB "a.jpg" false Stats.start).1 (Loc.bak "a.jpg") = some (bs 3) :=
  ⟨(claim2_backup_idempotent pilA cfgW fsA "a.jpg" Stats.start (bs 10) (bs 5) infoA
      (by decide) (by decide) (by decide) (by decide)
      (by norm_num [cfgW, savingsOf, bs, List.length_replicate])).1 (by decide),
   (claim2_backup_idempotent pilA cfgW fsB "a.jpg" Stats.start (bs 10) (bs 5) infoA
      (by decide) (by decide) (by decide) (by decide)
      (by norm_num [cfgW, savingsOf, bs, List.length_replicate])).2.1 (bs 3) (by decide)⟩

/-- C3: with `--dry-run` the whole batch leaves the filesystem exactly as it
was — nothing under the source, backup or WebP roots is created, modified or
deleted — while the statistics are still filled in: every discovered file
bumps exactly one of the processed/skipped/errored counters, the byte total
accumulates every file's size, and a decodable file is recorded as processed
with its own size, without any write. -/
theorem claim3_dry_run_frame (pil : PIL) (cfg : Config) (fs : FS) (rels : List String)
    (hall : ∀ rel ∈ rels, (fs (Loc.src rel)).isSome) :
    (runBatch pil cfg fs rels true).1 = fs ∧
    (runBatch pil cfg fs rels true).2.1.processed +
      (runBatch pil cfg fs rels true).2.1.skipped +
      (runBatch pil cfg fs rels true).2.1.errors = rels.length ∧
    (runBatch pil cfg fs rels true).2.1.original_size =
      (rels.map fun rel => ((fs (Loc.src rel)).getD []).length).sum ∧
    (∀ fs' st' rel orig info, fs' (Loc.src rel) = some orig →
      ¬ orig.length < cfg.skip_small → pil.decode orig = some info →
      process_image pil cfg fs' rel true st' =
        (fs', { st' with original_size := st'.original_size + orig.length,
                         processed := st'.processed + 1,
                         new_size := st'.new_size + orig.length }, Outcome.dryProcessed)) := by
  unfold runBatch
  obtain ⟨h1, h2, h3⟩ := runBatchAux_dry pil cfg rels fs Stats.start hall
  refine ⟨h1, ?_, ?_, ?_⟩
  · rw [h2]
    simp [Stats.start]
  · rw [h3]
    simp [Stats.start]
  · intro fs' st' rel orig info ha hb hc
    exact process_image_dry_eq pil cfg fs' rel st' orig info ha hb hc

/-- Witness for C3: a one-file dry run leaves the filesystem untouched and
counts the file. -/
theorem claim3_witness :
    (runBatch pilA cfgW fsA ["a.jpg"] true).1 = fsA ∧
    (runBatch pilA cfgW fsA ["a.jpg"] true).2.1.processed +
      (runBatch pilA cfgW fsA ["a.jpg"] true).2.1.skipped +
      (runBatch pilA cfgW fsA ["a.jpg"] true).2.1.errors = 1 :=
  ⟨(claim3_dry_run_frame pilA cfgW fsA ["a.jpg"] (by decide)).1,
   (claim3_dry_run_frame pilA cfgW fsA ["a.jpg"] (by decide)).2.1⟩

/-- C4: a file smaller than `skip_small` is skipped at once: the skip
counter goes up, its size enters the original-bytes total, the outcome is
`skippedSmall`, and the filesystem — the file itself, its backup slot and
its WebP slot — is returned unchanged, in any mode. -/
theorem claim4_skip_small (pil : PIL) (cfg : Config) (fs : FS) (rel : String)
    (dry : Bool) (st : Stats) (orig : Bytes)
    (hsrc : fs (Loc.src rel) = some orig)
    (hsmall : orig.length < cfg.skip_small) :
    process_image pil cfg fs rel dry st =
      (fs, { st with original_size := st.original_size + orig.length,
                     skipped := st.skipped + 1 }, Outcome.skippedSmall) :=
  process_image_small_eq pil cfg fs rel dry st orig hsrc hsmall

/-- Witness for C4: a 2-byte PNG below the 4-byte threshold is skipped and
nothing changes. -/
theorem claim4_witness :
    process_image pilA cfgW fsS "s.png" false Stats.start =
      (fsS, { Stats.start with original_size := Stats.start.original_size + (bs 2).length,
                               skipped := Stats.start.skipped + 1 }, Outcome.skippedSmall) :=
  claim4_skip_small pilA cfgW fsS "s.png" false Stats.start (bs 2) (by decide) (by decide)

/-- C9: a too-small or undecodable file adds its size to the original-bytes
total but nothing to the new-bytes total; hence a run in which every file is
below the threshold ends with a zero resulting total and the report computes
a saving of 100 percent although nothing changed on disk. -/
theorem claim9_skipped_bytes_pct (pil : PIL) (cfg : Config) (fs : FS)
    (rels : List String) (dry : Bool)
    (hall : ∀ rel ∈ rels, ∃ b, fs (Loc.src rel) = some b ∧ b.length < cfg.skip_small)
    (hpos : 0 < (runBatch pil cfg fs rels dry).2.1.original_size) :
    (runBatch pil cfg fs rels dry).1 = fs ∧
    (runBatch pil cfg fs rels dry).2.1.new_size = 0 ∧
    savings_pct (runBatch pil cfg fs rels dry).2.1 = 100 ∧
    (∀ fs' st' rel orig, fs' (Loc.src rel) = some orig →
      orig.length < cfg.skip_small →
      (process_image pil cfg fs' rel dry st').2.1.original_size
          = st'.original_size + orig.length ∧
      (process_image pil cfg fs' rel dry st').2.1.new_size = st'.new_size) ∧
    (∀ fs' st' rel orig, fs' (Loc.src rel) = some orig →
      ¬ orig.length < cfg.skip_small → pil.decode orig = none →
      (process_image pil cfg fs' rel dry st').2.1.original_size
          = st'.original_size + orig.length ∧
      (process_image pil cfg fs' rel dry st').2.1.new_size = st'.new_size) := by
  unfold runBatch at hpos ⊢
  obtain ⟨h1, h2⟩ := runBatchAux_all_small pil cfg dry rels fs Stats.start hall
  have hnew : (runBatchAux pil cfg dry fs Stats.start rels).2.1.new_size = 0 := by
    rw [h2]; rfl
  refine ⟨h1, hnew, ?_, ?_, ?_⟩
  · unfold savings_pct
    rw [hnew]
    have ho : (0 : ℚ) < ((runBatchAux pil cfg dry fs Stats.start rels).2.1.original_size : ℚ) := by
      exact_mod_cast hpos
    push_cast
    rw [sub_zero, div_self (ne_of_gt ho), one_mul]
  · intro fs' st' rel orig ha hb
    rw [process_image_small_eq pil cfg fs' rel dry st' orig ha hb]
    exact ⟨rfl, rfl⟩
  · intro fs' st' rel orig ha hb hc
    rw [process_image_error_eq pil cfg fs' rel dry st' orig ha hb hc]
    exact ⟨rfl, rfl⟩

/-- Witness for C9: a run over one 2-byte file ends with a zero new-bytes
total and a reported saving of 100 percent. -/
theorem claim9_witness :
    (runBatch pilA cfgW fsS ["s.png"] false).2.1.new_size = 0 ∧
    savings_pct (runBatch pilA cfgW fsS ["s.png"] false).2.1 = 100 :=
  ⟨(claim9_skipped_bytes_pct pilA cfgW fsS ["s.png"] false (by decide) (by decide)).2.1,
   (claim9_skipped_bytes_pct pilA cfgW fsS ["s.png"] false (by decide) (by decide)).2.2.1⟩

/-- C7: once a file has passed the size and decode gates in a non-dry run,
the WebP step runs whatever the re-encode decided: the file's main outcome
is a function of the re-encode result and the savings test alone (so a WebP
failure cannot change it), the WebP encoder is fed the file's current source
content, its success writes the mirrored `.webp` file and bumps the counter,
its failure changes nothing; and `create_webp` keeps the mode of `RGBA`/`LA`
sources, expands `P` to `RGBA` (transparency kept), and flattens everything
else to `RGB`. -/
theorem claim7_webp_always_attempted (pil : PIL) (cfg : Config) (fs : FS)
    (rel : String) (st : Stats) (orig : Bytes) (info : ImageInfo)
    (hsrc : fs (Loc.src rel) = some orig)
    (hbig : ¬ orig.length < cfg.skip_small)
    (hdec : pil.decode orig = some info) :
    (process_image pil cfg fs rel false st).2.2 =
      mainOutcome cfg orig.length (reencode pil cfg (suffixLower rel) orig) ∧
    (∃ cur, (process_image pil cfg fs rel false st).1 (Loc.src rel) = some cur ∧
      (∀ wb, pil.encWebp cur cfg.webp_quality = some wb →
        (process_image pil cfg fs rel false st).1 (Loc.webp rel) = some wb ∧
        (process_image pil cfg fs rel false st).2.1.webp_created = st.webp_created + 1) ∧
      (pil.encWebp cur cfg.webp_quality = none →
        (process_image pil cfg fs rel false st).1 (Loc.webp rel) = fs (Loc.webp rel) ∧
        (process_image pil cfg fs rel false st).2.1.webp_created = st.webp_created)) ∧
    (∀ img q,
      (img.mode = "P" → (create_webp img q).img.mode = "RGBA") ∧
      (img.mode = "RGBA" ∨ img.mode = "LA" → (create_webp img q).img.mode = img.mode) ∧
      (¬ (img.mode = "RGBA" ∨ img.mode = "LA" ∨ img.mode = "P") →
        (create_webp img q).img.mode = "RGB")) := by
  have hmode : ∀ (img : Img) (q : Nat),
      (img.mode = "P" → (create_webp img q).img.mode = "RGBA") ∧
      (img.mode = "RGBA" ∨ img.mode = "LA" → (create_webp img q).img.mode = img.mode) ∧
      (¬ (img.mode = "RGBA" ∨ img.mode = "LA" ∨ img.mode = "P") →
        (create_webp img q).img.mode = "RGB") := by
    intro img q
    refine ⟨?_, ?_, ?_⟩
    · intro hm
      simp only [create_webp]
      rw [if_pos (Or.inr (Or.inr hm)), if_pos hm]
      rfl
    · rintro (hm | hm)
      · simp only [create_webp]
        rw [if_pos (Or.inl hm), if_neg (by rw [hm]; decide)]
      · simp only [create_webp]
        rw [if_pos (Or.inr (Or.inl hm)), if_neg (by rw [hm]; decide)]
    · intro hm
      simp only [create_webp]
      rw [if_neg hm]
      rfl
  rcases process_image_cases pil cfg fs rel false st with
    ⟨hsrc', hE⟩ |
    ⟨orig', hsrc', ⟨hsz, hE⟩ | ⟨hsz, ⟨hdec', hE⟩ | ⟨⟨info', hdec'⟩, ⟨hdry, hE⟩ |
      ⟨hdry, ⟨nb, henc', ⟨hsav', hE⟩ | ⟨hsav', hE⟩⟩ | ⟨henc', hE⟩⟩⟩⟩⟩
  · rw [hsrc] at hsrc'; cases hsrc'
  · rw [hsrc] at hsrc'; injection hsrc' with he; subst he; exact absurd hsz hbig
  · rw [hsrc] at hsrc'; injection hsrc' with he; subst he
    rw [hdec] at hdec'; cases hdec'
  · cases hdry
  · rw [hsrc] at hsrc'; injection hsrc' with he; subst he
    have hsq : ((((if fs (Loc.bak rel) = none then
          (fs.set (Loc.tmp rel) (some nb)).set (Loc.bak rel) (some orig)
        else
          fs.set (Loc.tmp rel) (some nb)).set (Loc.src rel)
            (some nb)).set (Loc.tmp rel) none)) (Loc.src rel) = some nb := by
      rw [FS.set_ne _ _ _ _ (Loc.src_ne_tmp rel rel), FS.set_self]
    have hwq : ((((if fs (Loc.bak rel) = none then
          (fs.set (Loc.tmp rel) (some nb)).set (Loc.bak rel) (some orig)
        else
          fs.set (Loc.tmp rel) (some nb)).set (Loc.src rel)
            (some nb)).set (Loc.tmp rel) none)) (Loc.webp rel) = fs (Loc.webp rel) := by
      rw [FS.set_ne _ _ _ _ (fun hh => Loc.noConfusion hh),
        FS.set_ne _ _ _ _ (fun hh => Loc.noConfusion hh)]
      by_cases hb : fs (Loc.bak rel) = none
      · rw [if_pos hb, FS.set_ne _ _ _ _ (fun hh => Loc.noConfusion hh),
          FS.set_ne _ _ _ _ (fun hh => Loc.noConfusion hh)]
      · rw [if_neg hb, FS.set_ne _ _ _ _ (fun hh => Loc.noConfusion hh)]
    refine ⟨?_, ⟨nb, ?_, ?_, ?_⟩, hmode⟩
    · rw [hE, webpStep_outcome, henc']
      simp only [mainOutcome]
      rw [if_pos hsav']
    · rw [hE, webpStep_fs_ne _ _ _ _ _ _ _ (Loc.src_ne_webp rel rel)]
      exact hsq
    · intro wb hw
      rw [hE]
      exact (webpStep_created pil cfg _ rel _ _ nb hsq).1 wb hw
    · intro hw
      rw [hE]
      have hc := (webpStep_created pil cfg
        ((((if fs (Loc.bak rel) = none then
            (fs.set (Loc.tmp rel) (some nb)).set (Loc.bak rel) (some orig)
          else
            fs.set (Loc.tmp rel) (some nb)).set (Loc.src rel)
              (some nb)).set (Loc.tmp rel) none)) rel
        { st with original_size := st.original_size + orig.length,
                  new_size := st.new_size + nb.length,
                  processed := st.processed + 1 } Outcome.replaced nb hsq).2 hw
      rw [hwq] at hc
      exact hc
  · rw [hsrc] at hsrc'; injection hsrc' with he; subst he
    have hsq : ((fs.set (Loc.tmp rel) (some nb)).set (Loc.tmp rel) none) (Loc.src rel)
        = some orig := by
      rw [FS.set_ne _ _ _ _ (Loc.src_ne_tmp rel rel),
        FS.set_ne _ _ _ _ (Loc.src_ne_tmp rel rel)]
      exact hsrc
    have hwq : ((fs.set (Loc.tmp rel) (some nb)).set (Loc.tmp rel) none) (Loc.webp rel)
        = fs (Loc.webp rel) := by
      rw [FS.set_ne _ _ _ _ (fun hh => Loc.noConfusion hh),
        FS.set_ne _ _ _ _ (fun hh => Loc.noConfusion hh)]
    refine ⟨?_, ⟨orig, ?_, ?_, ?_⟩, hmode⟩
    · rw [hE, webpStep_outcome, henc']
      simp only [mainOutcome]
      rw [if_neg hsav']
    · rw [hE, webpStep_fs_ne _ _ _ _ _ _ _ (Loc.src_ne_webp rel rel)]
      exact hsq
    · intro wb hw
      rw [hE]
      exact (webpStep_created pil cfg _ rel _ _ orig hsq).1 wb hw
    · intro hw
      rw [hE]
      have hc := (webpStep_created pil cfg
        ((fs.set (Loc.tmp rel) (some nb)).set (Loc.tmp rel) none) rel
        { st with original_size := st.original_size + orig.length,
                  new_size := st.new_size + orig.length,
                  skipped := st.skipped + 1 } Outcome.keptOriginal orig hsq).2 hw
      rw [hwq] at hc
      exact hc
  · rw [hsrc] at hsrc'; injection hsrc' with he; subst he
    have hsq : (if fs (Loc.tmp rel) ≠ none then fs.set (Loc.tmp rel) none else fs)
        (Loc.src rel) = some orig := by
      by_cases ht : fs (Loc.tmp rel) ≠ none
      · rw [if_pos ht, FS.set_ne _ _ _ _ (Loc.src_ne_tmp rel rel)]
        exact hsrc
      · rw [if_neg ht]
        exact hsrc
    have hwq : (if fs (Loc.tmp rel) ≠ none then fs.set (Loc.tmp rel) none else fs)
        (Loc.webp rel) = fs (Loc.webp rel) := by
      by_cases ht : fs (Loc.tmp rel) ≠ none
      · rw [if_pos ht, FS.set_ne _ _ _ _ (fun hh => Loc.noConfusion hh)]
      · rw [if_neg ht]
    refine ⟨?_, ⟨orig, ?_, ?_, ?_⟩, hmode⟩
    · rw [hE, webpStep_outcome, henc']
      simp only [mainOutcome]
    · rw [hE, webpStep_fs_ne _ _ _ _ _ _ _ (Loc.src_ne_webp rel rel)]
      exact hsq
    · intro wb hw
      rw [hE]
      exact (webpStep_created pil cfg _ rel _ _ orig hsq).1 wb hw
    · intro hw
      rw [hE]
      have hc := (webpStep_created pil cfg
        (if fs (Loc.tmp rel) ≠ none then fs.set (Loc.tmp rel) none else fs) rel
        { st with original_size := st.original_size + orig.length,
                  new_size := st.new_size + orig.length } Outcome.noReencode orig hsq).2 hw
      rw [hwq] at hc
      exact hc

/-- Witness for C7: on the replaced 10-byte JPEG the outcome is the one the
savings test dictates and a 3-byte WebP file is written. -/
theorem claim7_witness :
    (process_image pilA cfgW fsA "a.jpg" false Stats.start).2.2 =
      mainOutcome cfgW (bs 10).length (reencode pilA cfgW (suffixLower "a.jpg") (bs 10)) ∧
    (create_webp ⟨8, 8, "P", 1⟩ 80).img.mode = "RGBA" :=
  ⟨(claim7_webp_always_attempted pilA cfgW fsA "a.jpg" Stats.start (bs 10) infoA
      (by decide) (by decide) (by decide)).1,
   ((claim7_webp_always_attempted pilA cfgW fsA "a.jpg" Stats.start (bs 10) infoA
      (by decide) (by decide) (by decide)).2.2 ⟨8, 8, "P", 1⟩ 80).1 rfl⟩

/-- When the encoder fails (or the extension is unhandled), the file keeps
its content, no error is counted, and the outcome is `noReencode`. -/
theorem process_image_enc_none_facts (pil : PIL) (cfg : Config) (fs : FS)
    (rel : String) (st : Stats) (orig : Bytes) (info : ImageInfo)
    (hsrc : fs (Loc.src rel) = some orig)
    (hbig : ¬ orig.length < cfg.skip_small)
    (hdec : pil.decode orig = some info)
    (henc : reencode pil cfg (suffixLower rel) orig = none) :
    (process_image pil cfg fs rel false st).1 (Loc.src rel) = some orig ∧
    (process_image pil cfg fs rel false st).2.1.errors = st.errors ∧
    (process_image pil cfg fs rel false st).2.2 = Outcome.noReencode := by
  rcases process_image_cases pil cfg fs rel false st with
    ⟨hsrc', hE⟩ |
    ⟨orig', hsrc', ⟨hsz, hE⟩ | ⟨hsz, ⟨hdec', hE⟩ | ⟨⟨info', hdec'⟩, ⟨hdry, hE⟩ |
      ⟨hdry, ⟨nb, henc', ⟨hsav', hE⟩ | ⟨hsav', hE⟩⟩ | ⟨henc', hE⟩⟩⟩⟩⟩
  · rw [hsrc] at hsrc'; cases hsrc'
  · rw [hsrc] at hsrc'; injection hsrc' with he; subst he; exact absurd hsz hbig
  · rw [hsrc] at hsrc'; injection hsrc' with he; subst he
    rw [hdec] at hdec'; cases hdec'
  · cases hdry
  · rw [hsrc] at hsrc'; injection hsrc' with he; subst he
    rw [henc] at henc'; cases henc'
  · rw [hsrc] at hsrc'; injection hsrc' with he; subst he
    rw [henc] at henc'; cases henc'
  · rw [hsrc] at hsrc'; injection hsrc' with he; subst he
    refine ⟨?_, ?_, ?_⟩
    · rw [hE, webpStep_fs_ne _ _ _ _ _ _ _ (Loc.src_ne_webp rel rel)]
      by_cases ht : fs (Loc.tmp rel) ≠ none
      · rw [if_pos ht, FS.set_ne _ _ _ _ (Loc.src_ne_tmp rel rel)]
        exact hsrc
      · rw [if_neg ht]
        exact hsrc
    · rw [hE, (webpStep_counts pil cfg _ rel _ _).2.2.1]
    · rw [hE, webpStep_outcome]

/-- C8 (amended): the batch hands every discovered file to `process_image`
and accumulates one outcome per file; the error counter equals the number of
files whose outcome is `errored`; a decode failure is caught at the file's
boundary, errors the file and writes nothing; an encoder failure is also
caught at the file's boundary but is NOT counted as an error — the file is
left untouched with outcome `noReencode`; processing one file never touches
another file's locations; and no temporary `.opt` file survives the run. -/
theorem claim8_fault_isolation (pil : PIL) (cfg : Config) (fs : FS)
    (rels : List String) (dry : Bool) :
    (runBatch pil cfg fs rels dry).2.2.length = rels.length ∧
    (runBatch pil cfg fs rels dry).2.1.errors =
      (runBatch pil cfg fs rels dry).2.2.countP (fun o => decide (o = Outcome.errored)) ∧
    (∀ fs' st' rel orig, fs' (Loc.src rel) = some orig →
      ¬ orig.length < cfg.skip_small → pil.decode orig = none →
      process_image pil cfg fs' rel dry st' =
        (fs', { st' with original_size := st'.original_size + orig.length,
                         errors := st'.errors + 1 }, Outcome.errored)) ∧
    (∀ fs' st' rel orig info, fs' (Loc.src rel) = some orig →
      ¬ orig.length < cfg.skip_small → pil.decode orig = some info →
      reencode pil cfg (suffixLower rel) orig = none →
      (process_image pil cfg fs' rel false st').1 (Loc.src rel) = some orig ∧
      (process_image pil cfg fs' rel false st').2.1.errors = st'.errors ∧
      (process_image pil cfg fs' rel false st').2.2 = Outcome.noReencode) ∧
    (∀ fs' st' rel dry' l, Loc.relOf l ≠ rel →
      (process_image pil cfg fs' rel dry' st').1 l = fs' l) ∧
    ((∀ s, fs (Loc.tmp s) = none) →
      ∀ s, (runBatch pil cfg fs rels dry).1 (Loc.tmp s) = none) := by
  refine ⟨runBatchAux_length pil cfg dry rels fs Stats.start, ?_, ?_, ?_, ?_, ?_⟩
  · unfold runBatch
    rw [runBatchAux_errors pil cfg dry rels fs Stats.start]
    simp [Stats.start]
  · intro fs' st' rel orig ha hb hc
    exact process_image_error_eq pil cfg fs' rel dry st' orig ha hb hc
  · intro fs' st' rel orig info ha hb hc hd
    exact process_image_enc_none_facts pil cfg fs' rel st' orig info ha hb hc hd
  · intro fs' st' rel dry' l hl
    exact process_image_frame pil cfg fs' rel dry' st' l hl
  · intro h s
    exact runBatchAux_tmp_clean pil cfg dry rels fs Stats.start h s

/-- Counterexample for C8 as stated: a JPEG whose encoder fails does NOT
increment the error counter (the claim says a decode or encode failure
increments it) — the error count stays 0 and the file is merely left
without a re-encode. -/
theorem claim8_counterexample :
    pilE.decode (bs 10) = some infoA ∧
    reencode pilE cfgW (suffixLower "a.jpg") (bs 10) = none ∧
    (process_image pilE cfgW fsA "a.jpg" false Stats.start).2.1.errors = 0 ∧
    (process_image pilE cfgW fsA "a.jpg" false Stats.start).2.2 = Outcome.noReencode := by
  decide

/-- Scenario D of the spec, with the encoder model of `pilE`: ten files,
one of which fails to decode; the run completes with exactly one error and
ten outcomes. -/
theorem scenario_ten_files_one_decode_failure :
    (runBatch pilE cfgW fs10 ("bad.jpg" :: goodNames) false).2.1.errors = 1 ∧
    (runBatch pilE cfgW fs10 ("bad.jpg" :: goodNames) false).2.2.length = 10 := by
  decide

/-- C5 (amended): with a non-zero `--list-large K`, `main` goes to the
read-only listing branch and exits 0: the filesystem is returned as given,
at most the top 50 entries are shown and the reported total is the number of
all qualifying files; the qualifying files are exactly those with a
recognized extension whose size is strictly greater than `K * 1024` bytes
(not "at or above" — the source comparison is strict), listed in descending
size order. -/
theorem claim5_list_large_mode (pil : PIL) (fs : FS) (allFiles : List String)
    (K : Nat) (dr : Bool) (q mw : Nat) (hK : K ≠ 0) :
    mainRun pil fs allFiles ⟨dr, q, mw, some K⟩ =
      RunResult.listed fs ((find_large_images fs allFiles K).take 50)
        (find_large_images fs allFiles K).length 0 ∧
    (∀ r sz, ((r, sz) ∈ find_large_images fs allFiles K ↔
      r ∈ allFiles ∧ suffixLower r ∈ DEFAULT_CONFIG.formats ∧
      (∃ b, fs (Loc.src r) = some b ∧ b.length = sz) ∧ K * 1024 < sz)) ∧
    List.Pairwise (fun a b : String × Nat => b.2 ≤ a.2) (find_large_images fs allFiles K) ∧
    ((find_large_images fs allFiles K).take 50).length ≤ 50 := by
  have htrans : ∀ (a b c : String × Nat),
      (fun a b : String × Nat => decide (b.2 ≤ a.2)) a b = true →
      (fun a b : String × Nat => decide (b.2 ≤ a.2)) b c = true →
      (fun a b : String × Nat => decide (b.2 ≤ a.2)) a c = true := by
    intro a b c hab hbc
    simp only [decide_eq_true_eq] at hab hbc ⊢
    exact le_trans hbc hab
  have htot : ∀ (a b : String × Nat),
      ((fun a b : String × Nat => decide (b.2 ≤ a.2)) a b ||
        (fun a b : String × Nat => decide (b.2 ≤ a.2)) b a) = true := by
    intro a b
    simp only [Bool.or_eq_true, decide_eq_true_eq]
    exact Nat.le_total b.2 a.2
  refine ⟨?_, ?_, ?_, ?_⟩
  · unfold mainRun
    rw [if_pos (show truthyOptNat (some K) = true from decide_eq_true hK)]
    rfl
  · intro r sz
    unfold find_large_images
    rw [List.mem_mergeSort, List.mem_filterMap]
    constructor
    · rintro ⟨a, ha, hfa⟩
      by_cases hsuf : suffixLower a ∈ DEFAULT_CONFIG.formats
      · rw [if_pos hsuf] at hfa
        cases hb : fs (Loc.src a) with
        | none => simp only [hb] at hfa; cases hfa
        | some b =>
          simp only [hb] at hfa
          by_cases hk : K * 1024 < b.length
          · rw [if_pos hk] at hfa
            injection hfa with h1
            rw [Prod.mk.injEq] at h1
            obtain ⟨h2, h3⟩ := h1
            subst h2
            subst h3
            exact ⟨ha, hsuf, ⟨b, hb, rfl⟩, hk⟩
          · rw [if_neg hk] at hfa; cases hfa
      · rw [if_neg hsuf] at hfa; cases hfa
    · rintro ⟨hr, hsuf, ⟨b, hb, hlen⟩, hk⟩
      refine ⟨r, hr, ?_⟩
      rw [if_pos hsuf, hb]
      show (if K * 1024 < b.length then some ((r, b.length) : String × ℕ) else none)
          = some (r, sz)
      rw [hlen, if_pos hk]
  · unfold find_large_images
    have hs := List.sorted_mergeSort htrans htot
      (allFiles.filterMap fun rel =>
        if suffixLower rel ∈ DEFAULT_CONFIG.formats then
          match fs (.src rel) with
          | some b => if K * 1024 < b.length then some (rel, b.length) else none
          | none => none
        else none)
    refine List.Pairwise.imp ?_ hs
    intro a b hab
    simpa using hab
  · exact List.length_take_le 50 _

/-- Counterexample for C5 as stated: a recognized 1024-byte image is exactly
at the `--list-large 1` threshold (1 KB) and is NOT selected — the code
compares with strict `>`, the claim says "at or above". -/
theorem claim5_counterexample :
    suffixLower "a.jpg" ∈ DEFAULT_CONFIG.formats ∧
    fsKB (Loc.src "a.jpg") = some (bs 1024) ∧
    (bs 1024).length = 1 * 1024 ∧
    find_large_images fsKB ["a.jpg"] 1 = [] := by
  refine ⟨by decide, rfl, by rw [bs, List.length_replicate], ?_⟩
  unfold find_large_images
  rw [List.filterMap_cons]
  have hf : (if suffixLower "a.jpg" ∈ DEFAULT_CONFIG.formats then
      match fsKB (Loc.src "a.jpg") with
      | some b => if 1 * 1024 < b.length then some (("a.jpg", b.length) : String × ℕ) else none
      | none => none
    else none) = none := by
    rw [if_pos (by decide)]
    show (if 1 * 1024 < (bs 1024).length then
        some (("a.jpg", (bs 1024).length) : String × ℕ) else none) = none
    rw [if_neg (by rw [bs, List.length_replicate]; omega)]
  rw [hf]
  simp

/-- C10: `--list-large 0` is falsy in the mode test, so the run does not
enter the listing mode and instead executes the full optimize pipeline over
the recognized files, while any non-zero threshold enters the read-only
listing branch. -/
theorem claim10_zero_threshold_falls_through (pil : PIL) (fs : FS)
    (allFiles : List String) (dr : Bool) (q mw : Nat) :
    truthyOptNat (some 0) = false ∧
    mainRun pil fs allFiles ⟨dr, q, mw, some 0⟩ =
      RunResult.optimized
        (runBatch pil { DEFAULT_CONFIG with quality := q, max_width := mw } fs
          (allFiles.filter fun rel =>
            decide (suffixLower rel ∈
              ({ DEFAULT_CONFIG with quality := q, max_width := mw } : Config).formats))
          dr).1
        (runBatch pil { DEFAULT_CONFIG with quality := q, max_width := mw } fs
          (allFiles.filter fun rel =>
            decide (suffixLower rel ∈
              ({ DEFAULT_CONFIG with quality := q, max_width := mw } : Config).formats))
          dr).2.1
        (runBatch pil { DEFAULT_CONFIG with quality := q, max_width := mw } fs
          (allFiles.filter fun rel =>
            decide (suffixLower rel ∈
              ({ DEFAULT_CONFIG with quality := q, max_width := mw } : Config).formats))
          dr).2.2 ∧
    mainRun pil fs allFiles ⟨dr, q, mw, some 0⟩ = mainRun pil fs allFiles ⟨dr, q, mw, none⟩ ∧
    (∀ k, k ≠ 0 →
      mainRun pil fs allFiles ⟨dr, q, mw, some k⟩ =
        RunResult.listed fs ((find_large_images fs allFiles k).take 50)
          (find_large_images fs allFiles k).length 0) := by
  refine ⟨rfl, ?_, ?_, ?_⟩
  · unfold mainRun
    rw [if_neg (show ¬ truthyOptNat (some 0) = true from by decide)]
  · unfold mainRun
    rw [if_neg (show ¬ truthyOptNat (some 0) = true from by decide),
      if_neg (show ¬ truthyOptNat none = true from by decide)]
  · intro k hk
    unfold mainRun
    rw [if_pos (show truthyOptNat (some k) = true from decide_eq_true hk)]
    rfl

/-- Witness for C5: the listing mode with threshold 500 is entered, returns
the filesystem unchanged and shows at most 50 entries. -/
theorem claim5_witness :
    mainRun pilA fsKB ["a.jpg"] ⟨false, 85, 1920, some 500⟩ =
      RunResult.listed fsKB ((find_large_images fsKB ["a.jpg"] 500).take 50)
        (find_large_images fsKB ["a.jpg"] 500).length 0 ∧
    ((find_large_images fsKB ["a.jpg"] 500).take 50).length ≤ 50 :=
  ⟨(claim5_list_large_mode pilA fsKB ["a.jpg"] 500 false 85 1920 (by decide)).1,
   (claim5_list_large_mode pilA fsKB ["a.jpg"] 500 false 85 1920 (by decide)).2.2.2⟩

/-! ### Pixel-level lemmas for the JPEG pipeline -/

theorem Img.convert_width (i : Img) (m : String) : (i.convert m).width = i.width := rfl

theorem Img.convert_height (i : Img) (m : String) : (i.convert m).height = i.height := rfl

theorem Img.convert_exif (i : Img) (m : String) :
    (i.convert m).exifOrientation = i.exifOrientation := rfl

theorem Img.convert_mode (i : Img) (m : String) : (i.convert m).mode = m := rfl

theorem Img.thumbnail_mode (i : Img) (mw mh : Nat) : (i.thumbnail mw mh).mode = i.mode := by
  unfold Img.thumbnail
  split <;> rfl

theorem Img.thumbnail_exif (i : Img) (mw mh : Nat) :
    (i.thumbnail mw mh).exifOrientation = i.exifOrientation := by
  unfold Img.thumbnail
  split <;> rfl

/-- When the stored orientation involves no 90-degree rotation,
`exif_transpose` keeps the dimensions and mode and clears the tag. -/
theorem Img.exif_transpose_no_rotation (i : Img)
    (hor : i.exifOrientation = 1 ∨ i.exifOrientation = 2 ∨
      i.exifOrientation = 3 ∨ i.exifOrientation = 4) :
    (i.exif_transpose).width = i.width ∧ (i.exif_transpose).height = i.height ∧
    (i.exif_transpose).mode = i.mode ∧ (i.exif_transpose).exifOrientation = 1 := by
  unfold Img.exif_transpose
  have h5 : ¬ (i.exifOrientation = 5 ∨ i.exifOrientation = 6 ∨
      i.exifOrientation = 7 ∨ i.exifOrientation = 8) := by
    rcases hor with h | h | h | h <;> rw [h] <;> decide
  rw [if_neg h5]
  rcases hor with h | h | h | h
  · rw [if_neg (by rw [h]; decide)]
    exact ⟨rfl, rfl, rfl, h⟩
  · rw [if_pos (Or.inl h)]
    exact ⟨rfl, rfl, rfl, rfl⟩
  · rw [if_pos (Or.inr (Or.inl h))]
    exact ⟨rfl, rfl, rfl, rfl⟩
  · rw [if_pos (Or.inr (Or.inr h))]
    exact ⟨rfl, rfl, rfl, rfl⟩

/-- `exif_transpose` never changes the colour mode, whatever the stored
orientation. -/
theorem Img.exif_transpose_mode (i : Img) : (i.exif_transpose).mode = i.mode := by
  unfold Img.exif_transpose
  split
  · rfl
  · split <;> rfl

/-- For every valid stored orientation tag (1-8), `exif_transpose` delivers
an image whose tag is 1: the stored-orientation correction has been applied
and nothing is left pending. -/
theorem Img.exif_transpose_clears (i : Img)
    (h : i.exifOrientation = 1 ∨ i.exifOrientation = 2 ∨ i.exifOrientation = 3 ∨
      i.exifOrientation = 4 ∨ i.exifOrientation = 5 ∨ i.exifOrientation = 6 ∨
      i.exifOrientation = 7 ∨ i.exifOrientation = 8) :
    (i.exif_transpose).exifOrientation = 1 := by
  unfold Img.exif_transpose
  rcases h with h | h | h | h | h | h | h | h
  · rw [if_neg (by rw [h]; decide), if_neg (by rw [h]; decide)]
    exact h
  · rw [if_neg (by rw [h]; decide), if_pos (Or.inl h)]
  · rw [if_neg (by rw [h]; decide), if_pos (Or.inr (Or.inl h))]
  · rw [if_neg (by rw [h]; decide), if_pos (Or.inr (Or.inr h))]
  · rw [if_pos (Or.inl h)]
  · rw [if_pos (Or.inr (Or.inl h))]
  · rw [if_pos (Or.inr (Or.inr (Or.inl h)))]
  · rw [if_pos (Or.inr (Or.inr (Or.inr h)))]

/-- A triggered `thumbnail` fits both bounds and scales both dimensions by
one ratio strictly below 1. -/
theorem Img.thumbnail_bounds (img : Img) (mw mh : Nat)
    (hw : 1 ≤ img.width) (hh : 1 ≤ img.height) (hmw : 1 ≤ mw) (hmh : 1 ≤ mh)
    (hn : ¬ (img.width ≤ mw ∧ img.height ≤ mh)) :
    (img.thumbnail mw mh).width ≤ mw ∧ (img.thumbnail mw mh).height ≤ mh ∧
    ∃ s : ℚ, 0 < s ∧ s < 1 ∧
      (img.thumbnail mw mh).width = max 1 (Int.toNat ⌊(img.width : ℚ) * s⌋) ∧
      (img.thumbnail mw mh).height = max 1 (Int.toNat ⌊(img.height : ℚ) * s⌋) := by
  unfold Img.thumbnail
  rw [if_neg hn]
  have hw0 : (0 : ℚ) < (img.width : ℚ) := by exact_mod_cast hw
  have hh0 : (0 : ℚ) < (img.height : ℚ) := by exact_mod_cast hh
  have hmw0 : (0 : ℚ) < (mw : ℚ) := by exact_mod_cast hmw
  have hmh0 : (0 : ℚ) < (mh : ℚ) := by exact_mod_cast hmh
  have hr0 : 0 < min ((mw : ℚ) / (img.width : ℚ)) ((mh : ℚ) / (img.height : ℚ)) :=
    lt_min (div_pos hmw0 hw0) (div_pos hmh0 hh0)
  have hwle : (img.width : ℚ) * min ((mw : ℚ) / (img.width : ℚ)) ((mh : ℚ) / (img.height : ℚ))
      ≤ (mw : ℚ) := by
    calc (img.width : ℚ) * min ((mw : ℚ) / (img.width : ℚ)) ((mh : ℚ) / (img.height : ℚ))
        ≤ (img.width : ℚ) * ((mw : ℚ) / (img.width : ℚ)) :=
          mul_le_mul_of_nonneg_left (min_le_left _ _) (le_of_lt hw0)
      _ = (mw : ℚ) := by field_simp
  have hhle : (img.height : ℚ) * min ((mw : ℚ) / (img.width : ℚ)) ((mh : ℚ) / (img.height : ℚ))
      ≤ (mh : ℚ) := by
    calc (img.height : ℚ) * min ((mw : ℚ) / (img.width : ℚ)) ((mh : ℚ) / (img.height : ℚ))
        ≤ (img.height : ℚ) * ((mh : ℚ) / (img.height : ℚ)) :=
          mul_le_mul_of_nonneg_left (min_le_right _ _) (le_of_lt hh0)
      _ = (mh : ℚ) := by field_simp
  have hwfl : Int.toNat ⌊(img.width : ℚ) *
      min ((mw : ℚ) / (img.width : ℚ)) ((mh : ℚ) / (img.height : ℚ))⌋ ≤ mw := by
    rw [Int.toNat_le]
    calc ⌊(img.width : ℚ) * min ((mw : ℚ) / (img.width : ℚ)) ((mh : ℚ) / (img.height : ℚ))⌋
        ≤ ⌊(mw : ℚ)⌋ := Int.floor_le_floor hwle
      _ = (mw : ℤ) := Int.floor_natCast mw
  have hhfl : Int.toNat ⌊(img.height : ℚ) *
      min ((mw : ℚ) / (img.width : ℚ)) ((mh : ℚ) / (img.height : ℚ))⌋ ≤ mh := by
    rw [Int.toNat_le]
    calc ⌊(img.height : ℚ) * min ((mw : ℚ) / (img.width : ℚ)) ((mh : ℚ) / (img.height : ℚ))⌋
        ≤ ⌊(mh : ℚ)⌋ := Int.floor_le_floor hhle
      _ = (mh : ℤ) := Int.floor_natCast mh
  refine ⟨max_le hmw hwfl, max_le hmh hhfl,
    min ((mw : ℚ) / (img.width : ℚ)) ((mh : ℚ) / (img.height : ℚ)), hr0, ?_, rfl, rfl⟩
  rw [not_and_or, not_le, not_le] at hn
  rcases hn with hn | hn
  · calc min ((mw : ℚ) / (img.width : ℚ)) ((mh : ℚ) / (img.height : ℚ))
        ≤ (mw : ℚ) / (img.width : ℚ) := min_le_left _ _
      _ < 1 := by rw [div_lt_one hw0]; exact_mod_cast hn
  · calc min ((mw : ℚ) / (img.width : ℚ)) ((mh : ℚ) / (img.height : ℚ))
        ≤ (mh : ℚ) / (img.height : ℚ) := min_le_right _ _
      _ < 1 := by rw [div_lt_one hh0]; exact_mod_cast hn

/-- C6 (amended): for every JPEG input, `optimize_jpeg` flattens `RGBA`/`P`
sources to `RGB` and leaves other modes alone, applies the
stored-orientation correction for every valid EXIF tag 1-8 (the delivered
image carries tag 1, nothing pending), and saves with the configured
quality, entropy optimization and progressive scanning; and when the stored
orientation involves no 90-degree rotation, a source exceeding a bound is
delivered with both dimensions within the bounds, scaled by one common
ratio strictly below 1. -/
theorem claim6_jpeg_pipeline (img : Img) (q mw mh : Nat) :
    (img.mode = "RGBA" ∨ img.mode = "P" → (optimize_jpeg img q mw mh).img.mode = "RGB") ∧
    (¬ (img.mode = "RGBA" ∨ img.mode = "P") →
      (optimize_jpeg img q mw mh).img.mode = img.mode) ∧
    (img.exifOrientation = 1 ∨ img.exifOrientation = 2 ∨ img.exifOrientation = 3 ∨
      img.exifOrientation = 4 ∨ img.exifOrientation = 5 ∨ img.exifOrientation = 6 ∨
      img.exifOrientation = 7 ∨ img.exifOrientation = 8 →
      (optimize_jpeg img q mw mh).img.exifOrientation = 1) ∧
    (optimize_jpeg img q mw mh).quality = q ∧
    (optimize_jpeg img q mw mh).optimizeFlag = true ∧
    (optimize_jpeg img q mw mh).progressive = true ∧
    (1 ≤ img.width → 1 ≤ img.height → 1 ≤ mw → 1 ≤ mh →
      (img.exifOrientation = 1 ∨ img.exifOrientation = 2 ∨ img.exifOrientation = 3 ∨
        img.exifOrientation = 4) →
      mw < img.width ∨ mh < img.height →
      (optimize_jpeg img q mw mh).img.width ≤ mw ∧
      (optimize_jpeg img q mw mh).img.height ≤ mh ∧
      ∃ s : ℚ, 0 < s ∧ s < 1 ∧
        (optimize_jpeg img q mw mh).img.width = max 1 (Int.toNat ⌊(img.width : ℚ) * s⌋) ∧
        (optimize_jpeg img q mw mh).img.height = max 1 (Int.toNat ⌊(img.height : ℚ) * s⌋)) := by
  have himg : (optimize_jpeg img q mw mh).img =
      (if (if img.mode = "RGBA" ∨ img.mode = "P" then img.convert "RGB" else img).width > mw ∨
          (if img.mode = "RGBA" ∨ img.mode = "P" then img.convert "RGB" else img).height > mh
        then
          (if img.mode = "RGBA" ∨ img.mode = "P" then img.convert "RGB" else img).thumbnail mw mh
        else
          (if img.mode = "RGBA" ∨ img.mode = "P" then
            img.convert "RGB" else img)).exif_transpose := rfl
  set i1 : Img := if img.mode = "RGBA" ∨ img.mode = "P" then img.convert "RGB" else img with hi1
  have h1w : i1.width = img.width := by rw [hi1]; split <;> rfl
  have h1h : i1.height = img.height := by rw [hi1]; split <;> rfl
  have h1o : i1.exifOrientation = img.exifOrientation := by rw [hi1]; split <;> rfl
  have h1ma : img.mode = "RGBA" ∨ img.mode = "P" → i1.mode = "RGB" := by
    intro hm
    rw [hi1, if_pos hm, Img.convert_mode]
  have h1mb : ¬ (img.mode = "RGBA" ∨ img.mode = "P") → i1.mode = img.mode := by
    intro hm
    rw [hi1, if_neg hm]
  have h2m : (if i1.width > mw ∨ i1.height > mh then i1.thumbnail mw mh else i1).mode
      = i1.mode := by
    split
    · exact Img.thumbnail_mode i1 mw mh
    · rfl
  have h2o : (if i1.width > mw ∨ i1.height > mh then i1.thumbnail mw mh else i1).exifOrientation
      = img.exifOrientation := by
    split
    · rw [Img.thumbnail_exif]
      exact h1o
    · exact h1o
  refine ⟨?_, ?_, ?_, rfl, rfl, rfl, ?_⟩
  · intro hm
    rw [himg, Img.exif_transpose_mode, h2m]
    exact h1ma hm
  · intro hm
    rw [himg, Img.exif_transpose_mode, h2m]
    exact h1mb hm
  · intro hor8
    rw [himg]
    refine Img.exif_transpose_clears _ ?_
    rw [h2o]
    exact hor8
  · intro hw hh hmw hmh hor hrs
    have hrs' : i1.width > mw ∨ i1.height > mh := by rw [h1w, h1h]; exact hrs
    rw [if_pos hrs'] at himg
    obtain ⟨hbw, hbh, s, hs0, hs1, hsw, hsh⟩ :=
      Img.thumbnail_bounds i1 mw mh (by rw [h1w]; exact hw) (by rw [h1h]; exact hh) hmw hmh
        (by
          rw [h1w, h1h]
          rintro ⟨ha, hb⟩
          rcases hrs with hr | hr
          · exact absurd ha (not_le.mpr hr)
          · exact absurd hb (not_le.mpr hr))
    obtain ⟨htw, hth, htm, hto⟩ := Img.exif_transpose_no_rotation (i1.thumbnail mw mh)
      (by rw [Img.thumbnail_exif, h1o]; exact hor)
    refine ⟨?_, ?_, s, hs0, hs1, ?_, ?_⟩
    · rw [himg, htw]
      exact hbw
    · rw [himg, hth]
      exact hbh
    · rw [himg, htw, hsw, h1w]
    · rw [himg, hth, hsh, h1h]

/-- Witness for C6: an RGBA image stored with the rotated orientation 6 is
flattened to RGB and its orientation tag cleared; a plain-orientation
4000x3000 image fits 1920x1080 and is saved at quality 85. -/
theorem claim6_witness :
    (optimize_jpeg ⟨4000, 3000, "RGBA", 6⟩ 85 1920 1080).img.mode = "RGB" ∧
    (optimize_jpeg ⟨4000, 3000, "RGBA", 6⟩ 85 1920 1080).img.exifOrientation = 1 ∧
    (optimize_jpeg ⟨4000, 3000, "RGBA", 1⟩ 85 1920 1080).img.width ≤ 1920 ∧
    (optimize_jpeg ⟨4000, 3000, "RGBA", 1⟩ 85 1920 1080).img.height ≤ 1080 ∧
    (optimize_jpeg ⟨4000, 3000, "RGBA", 1⟩ 85 1920 1080).quality = 85 := by
  have h6 := claim6_jpeg_pipeline ⟨4000, 3000, "RGBA", 6⟩ 85 1920 1080
  have h1 := claim6_jpeg_pipeline ⟨4000, 3000, "RGBA", 1⟩ 85 1920 1080
  have hd := h1.2.2.2.2.2.2 (by decide) (by decide) (by decide) (by decide)
    (Or.inl rfl) (Or.inl (by decide))
  exact ⟨h6.1 (Or.inl rfl), h6.2.2.1 (by decide), hd.1, hd.2.1, h1.2.2.2.1⟩

/-- Counterexample for C6 as stated: a 2000x1000 JPEG stored with EXIF
orientation 6 (90-degree rotation) exceeds the maximum width, is resized to
1920x960 and then transposed by the orientation correction — the delivered
image is 960x1920, whose height exceeds the configured maximum height 1080.
So the claim that both dimensions always end up within the configured
maxima is false. -/
theorem claim6_counterexample :
    (1920 < (⟨2000, 1000, "RGB", 6⟩ : Img).width ∨
      1080 < (⟨2000, 1000, "RGB", 6⟩ : Img).height) ∧
    (optimize_jpeg ⟨2000, 1000, "RGB", 6⟩ 85 1920 1080).img.height = 1920 ∧
    ¬ (optimize_jpeg ⟨2000, 1000, "RGB", 6⟩ 85 1920 1080).img.height ≤ 1080 := by
  have h1 : (optimize_jpeg ⟨2000, 1000, "RGB", 6⟩ 85 1920 1080).img =
      ((⟨2000, 1000, "RGB", 6⟩ : Img).thumbnail 1920 1080).exif_transpose := rfl
  have h2 : (⟨2000, 1000, "RGB", 6⟩ : Img).thumbnail 1920 1080 =
      ⟨1920, 960, "RGB", 6⟩ := by
    unfold Img.thumbnail
    rw [if_neg (by decide)]
    have hm : min (((1920 : ℕ) : ℚ) / ((2000 : ℕ) : ℚ)) (((1080 : ℕ) : ℚ) / ((1000 : ℕ) : ℚ))
        = 24 / 25 := by
      norm_num [min_def]
    simp only [Img.mk.injEq]
    norm_num [hm]
    exact ⟨rfl, rfl⟩
  have h3 : (optimize_jpeg ⟨2000, 1000, "RGB", 6⟩ 85 1920 1080).img =
      ⟨960, 1920, "RGB", 1⟩ := by
    rw [h1, h2]
    rfl
  rw [h3]
  exact ⟨Or.inl (by decide), rfl, by decide⟩
